import Mathlib

/-!
# Shallow embedding of the store-rating application backend

This file embeds the data model (User, Store, Rating documents) and the REST
handlers of the store-rating application (Express + Mongoose) as executable
Lean definitions, and proves the specification claims about them.

Conventions of the embedding:
* Mongo ObjectIds are modelled as `Nat`; the database carries a `nextId`
  counter standing for fresh ObjectId generation.
* Timestamps (`Date.now()`) are modelled as a `Nat` parameter `now` passed to
  each request.
* JS numbers occurring as rating values are modelled as `ℚ` (the reachable
  values are small integers and exact decimal fractions, where JS doubles are
  exact); `Number.isInteger` is `Rat.den = 1`, and `Math.round` is
  `⌊x + 1/2⌋` (JS rounds ties toward +∞).
* Third-party library functions that are not part of the repository
  (`bcrypt.hash`, `jwt.sign`, validator.js `isEmail`) are modelled by
  executable stand-ins; no claim depends on their exact extension.
-/

namespace StoreRating

/-- A rating document (models `ratingSchema` of `models/Rating.js`). -/
structure Rating where
  id : Nat
  userId : Nat
  storeId : Nat
  rating : ℚ
  comment : String
  createdAt : Nat
  updatedAt : Nat
  deriving Repr, DecidableEq

/-- A store document (models `storeSchema` of `models/Store.js`). -/
structure Store where
  id : Nat
  name : String
  email : String
  address : String
  ownerId : Nat
  averageRating : ℚ
  totalRatings : Nat
  isActive : Bool
  createdAt : Nat
  updatedAt : Nat
  deriving Repr, DecidableEq

/-- A user document (models `userSchema` of `models/User.js`).  `role` is the
raw string stored in the document ("admin" | "user" | "storeOwner" when the
enum validator passes); `password` holds whatever string is stored (the
bcrypt hash after the pre-save hook runs). -/
structure User where
  id : Nat
  name : String
  email : String
  password : String
  address : String
  role : String
  storeId : Option Nat
  isActive : Bool
  createdAt : Nat
  updatedAt : Nat
  deriving Repr, DecidableEq

/-- The database state: the three collections plus a fresh-ObjectId counter. -/
structure DB where
  users : List User
  stores : List Store
  ratings : List Rating
  nextId : Nat
  deriving Repr, DecidableEq

/-- `Model.findById` / `findOne({_id})`. -/
def findUser (db : DB) (id : Nat) : Option User :=
  db.users.find? (fun u => u.id == id)

def findStore (db : DB) (id : Nat) : Option Store :=
  db.stores.find? (fun s => s.id == id)

def findRating (db : DB) (id : Nat) : Option Rating :=
  db.ratings.find? (fun r => r.id == id)

/-- Saving a fetched document: replace the document with the matching `_id`. -/
def saveUser (db : DB) (u : User) : DB :=
  { db with users := db.users.map (fun x => if x.id == u.id then u else x) }

def saveStore (db : DB) (s : Store) : DB :=
  { db with stores := db.stores.map (fun x => if x.id == s.id then s else x) }

def saveRating (db : DB) (r : Rating) : DB :=
  { db with ratings := db.ratings.map (fun x => if x.id == r.id then r else x) }

/-- JS `Math.round`: nearest integer, ties toward +∞. -/
def jsRound (x : ℚ) : ℤ := ⌊x + 1/2⌋

/-- `Math.round(x * 10) / 10` — round to one decimal place
(`Store.js` line 77). -/
def roundTenths (x : ℚ) : ℚ := (jsRound (x * 10) : ℚ) / 10

/-- The ratings of one store: the `$match { storeId }` stage of the
aggregation in `storeSchema.methods.updateRating`. -/
def storeRatings (db : DB) (storeId : Nat) : List Rating :=
  db.ratings.filter (fun r => r.storeId == storeId)

/-- `storeSchema.methods.updateRating` (`models/Store.js` lines 62-85):
aggregate `$avg '$rating'` / `$sum 1` over the store's ratings, round the
average to one decimal, store the results (0 and 0 when there are no
ratings), then save (so the pre-save hook stamps `updatedAt`). -/
def Store.updateRating (s : Store) (db : DB) (now : Nat) : Store :=
  let rs := storeRatings db s.id
  if rs.length > 0 then
    { s with
      averageRating := roundTenths ((rs.map (fun r => r.rating)).sum / (rs.length : ℚ)),
      totalRatings := rs.length,
      updatedAt := now }
  else
    { s with averageRating := 0, totalRatings := 0, updatedAt := now }

/-- `ratingSchema.post('save')` (`models/Rating.js` lines 52-62): after a
rating document is saved, re-fetch its store and run `updateRating` on it.
If the store does not exist the error is swallowed and nothing happens. -/
def ratingPostSaveHook (db : DB) (storeId : Nat) (now : Nat) : DB :=
  match findStore db storeId with
  | none => db
  | some s => saveStore db (s.updateRating db now)

/-! ## String helpers

JS string operations are modelled over `String.data` (the character list).
String length counts characters, abstracting JS's UTF-16 units; the
difference is irrelevant to every claim. -/

/-- JS `String.prototype.trim` / the mongoose and express-validator `trim`. -/
def jsTrim (s : String) : String :=
  ⟨((s.data.dropWhile Char.isWhitespace).reverse.dropWhile Char.isWhitespace).reverse⟩

/-- JS `.length` (character count). -/
def strLen (s : String) : Nat := s.data.length

/-- JS `.toLowerCase()` / express-validator `normalizeEmail` (modelled as
lowercasing) / the mongoose `lowercase: true` setter. -/
def lowerStr (s : String) : String := ⟨s.data.map Char.toLower⟩

/-- Whether `needle` occurs as a contiguous subsequence of `hay`. -/
def listContainsSeq (needle : List Char) : List Char → Bool
  | [] => needle.isEmpty
  | c :: t => needle.isPrefixOf (c :: t) || listContainsSeq needle t

/-- Case-insensitive substring test: the `$regex`/`$options: 'i'` filters. -/
def iContains (hay needle : String) : Bool :=
  listContainsSeq (lowerStr needle).data (lowerStr hay).data

/-- Insertion into a sorted list, for `sortBy`. -/
def insertBy (le : α → α → Bool) (a : α) : List α → List α
  | [] => [a]
  | b :: l => if le a b then a :: b :: l else b :: insertBy le a l

/-- Stable insertion sort, modelling MongoDB `.sort(...)`. -/
def sortBy (le : α → α → Bool) : List α → List α
  | [] => []
  | a :: l => insertBy le a (sortBy le l)

/-! ## Library stand-ins -/

/-- Stand-in for `bcrypt.hash` (third-party library): the model only needs
that the stored string is what the pre-save hook produces.  Real hashes
start with `$2a$`/`$2b$`, which the password validator of `userSchema`
checks for, so the stand-in keeps that shape. -/
def bcryptHash (p : String) : String := "$2b$12$" ++ p

/-- Stand-in for `bcrypt.compare` against a stored hash
(`userSchema.methods.comparePassword`). -/
def comparePassword (candidate stored : String) : Bool :=
  stored == bcryptHash candidate

/-- Stand-in for `jwt.sign({ userId, role, iat }, JWT_SECRET, ...)` in
`generateToken` (`middleware/auth.js` lines 76-90).  The token is a function
of the user id and role only; in particular it never embeds a password. -/
def generateToken (userId : Nat) (role : String) : String :=
  "jwt." ++ toString userId ++ "." ++ role

/-! ## Field validators -/

/-- Whether a JS number is an integer (`Number.isInteger`). -/
def isIntQ (q : ℚ) : Bool := q.den == 1

/-- The special characters of the password regex
`[!@#$%^&*()_+\-=\[\]{};':"\\|,.<>\/?]` (validation.js / User.js). -/
def specialChars : List Char :=
  ['!', '@', '#', '$', '%', '^', '&', '*', '(', ')', '_', '+', '-', '=',
   '[', ']', Char.ofNat 123, Char.ofNat 125, ';', Char.ofNat 39, ':',
   Char.ofNat 34, Char.ofNat 92, '|', ',', '.', '<', '>', '/', '?']

/-- The password complexity regex
`^(?=.*[A-Z])(?=.*[...special...])`: at least one ASCII uppercase letter and
at least one special character. -/
def passwordComplexityOk (p : String) : Bool :=
  p.data.any (fun c => 'A' ≤ c && c ≤ 'Z') &&
  p.data.any (fun c => specialChars.contains c)

/-- The full password rule of `validateUserRegistration` /
`validateAdminUserCreation` / `validatePasswordUpdate`: length 8-16 and the
complexity regex. -/
def passwordRuleOk (p : String) : Bool :=
  8 ≤ strLen p && strLen p ≤ 16 && passwordComplexityOk p

/-- Stand-in for validator.js `isEmail` and for the email regex of
`userSchema`/`storeSchema`: one `@`, nonempty local part, a domain
containing a dot.  No claim depends on its exact extension. -/
def emailFormatOk (s : String) : Bool :=
  let cs := s.data
  let localPart := cs.takeWhile (fun c => !(c == '@'))
  match cs.dropWhile (fun c => !(c == '@')) with
  | '@' :: dom =>
    0 < localPart.length && 0 < dom.length && dom.contains '.' && !dom.contains '@'
  | _ => false

/-- Whether a string is one of the `role` enum values of `userSchema`. -/
def roleEnumOk (r : String) : Bool :=
  r == "admin" || r == "user" || r == "storeOwner"

/-- Mongoose document validation for `userSchema` (models/User.js): name
trimmed 10-60 chars, email matching the schema regex, password either
already hashed (`$2a`/`$2b` prefix) or satisfying the plain-password rule,
address required and at most 400 chars, role in the enum.  Validation runs
before the pre-save hooks, so it sees the plain password. -/
def userDocValid (u : User) : Bool :=
  10 ≤ strLen u.name && strLen u.name ≤ 60 &&
  emailFormatOk u.email &&
  (("$2a".data.isPrefixOf u.password.data || "$2b".data.isPrefixOf u.password.data) ||
    passwordRuleOk u.password) &&
  0 < strLen u.address && strLen u.address ≤ 400 &&
  roleEnumOk u.role

/-- Mongoose document validation for `storeSchema` (models/Store.js). -/
def storeDocValid (s : Store) : Bool :=
  10 ≤ strLen s.name && strLen s.name ≤ 60 &&
  emailFormatOk s.email &&
  0 < strLen s.address && strLen s.address ≤ 400 &&
  0 ≤ s.averageRating && s.averageRating ≤ 5

/-- Mongoose document validation for `ratingSchema` (models/Rating.js):
rating an integer between 1 and 5, comment at most 500 chars. -/
def ratingDocValid (r : Rating) : Bool :=
  1 ≤ r.rating && r.rating ≤ 5 && isIntQ r.rating && strLen r.comment ≤ 500

/-! ## JSON response bodies -/

/-- A JSON value, as produced by `res.json(...)`.  Dates are modelled as
numbers, ObjectIds as their decimal string. -/
inductive Json where
  | null : Json
  | bool : Bool → Json
  | num : ℚ → Json
  | str : String → Json
  | arr : List Json → Json
  | obj : List (String × Json) → Json

mutual

/-- All string leaf values occurring anywhere in a JSON value. -/
def jsonStrings : Json → List String
  | .null => []
  | .bool _ => []
  | .num _ => []
  | .str s => [s]
  | .arr js => jsonStringsArr js
  | .obj kvs => jsonStringsObj kvs

/-- `jsonStrings` over an array. -/
def jsonStringsArr : List Json → List String
  | [] => []
  | j :: js => jsonStrings j ++ jsonStringsArr js

/-- `jsonStrings` over an object's fields. -/
def jsonStringsObj : List (String × Json) → List String
  | [] => []
  | (_, j) :: kvs => jsonStrings j ++ jsonStringsObj kvs

end

mutual

/-- Whether a key occurs in any object anywhere inside a JSON value. -/
def jsonHasKey (k : String) : Json → Bool
  | .null => false
  | .bool _ => false
  | .num _ => false
  | .str _ => false
  | .arr js => jsonHasKeyArr k js
  | .obj kvs => jsonHasKeyObj k kvs

/-- `jsonHasKey` over an array. -/
def jsonHasKeyArr (k : String) : List Json → Bool
  | [] => false
  | j :: js => jsonHasKey k j || jsonHasKeyArr k js

/-- `jsonHasKey` over an object's fields. -/
def jsonHasKeyObj (k : String) : List (String × Json) → Bool
  | [] => false
  | (k', j) :: kvs => k' == k || jsonHasKey k j || jsonHasKeyObj k kvs

end

/-- An ObjectId serialized into JSON. -/
def jsonId (n : Nat) : Json := .str (toString n)

/-- An optional ObjectId reference serialized unpopulated (`null` or id). -/
def jsonOptId (n? : Option Nat) : Json :=
  match n? with
  | none => .null
  | some n => jsonId n

/-- An HTTP response: status code and JSON body. -/
structure Resp where
  status : Nat
  body : Json

/-- An error response with `message` and `error` fields, the common shape of
the handlers' failure paths. -/
def errResp (status : Nat) (msg ecode : String) : Resp :=
  ⟨status, .obj [("message", .str msg), ("error", .str ecode)]⟩

/-- The 400 response of `handleValidationErrors` (validation.js lines 4-19)
and of the ValidationError catch blocks.  The `errors` array (field, message,
value per failed check) is modelled as empty; no claim inspects it. -/
def validationFailedResp : Resp :=
  ⟨400, .obj [("message", .str "Validation failed"), ("errors", .arr [])]⟩

/-! ## Authentication and authorization middleware (middleware/auth.js) -/

/-- `authenticateToken` (auth.js lines 5-50).  A request's token is modelled
as `Option Nat`: `none` for a missing Authorization header, `some uid` for a
syntactically valid, unexpired JWT whose payload references user `uid`
(malformed and expired tokens, also rejected with 401, are outside the
model).  The middleware re-fetches the user (without the password field) and
rejects when the user is gone or inactive. -/
def authenticateToken (db : DB) (tok : Option Nat) : Except Resp User :=
  match tok with
  | none => .error (errResp 401 "Access denied. No token provided." "NO_TOKEN")
  | some uid =>
    match findUser db uid with
    | some u =>
      if u.isActive then .ok u
      else .error (errResp 401 "Access denied. User not found or inactive." "USER_NOT_FOUND")
    | none => .error (errResp 401 "Access denied. User not found or inactive." "USER_NOT_FOUND")

/-- `authorize(...roles)` (auth.js lines 53-73): `none` when the caller's
role is allowed, otherwise the 403 response. -/
def authorize (roles : List String) (u : User) : Option Resp :=
  if roles.contains u.role then none
  else some ⟨403, .obj [("message", .str "Access denied. Insufficient permissions."),
                        ("error", .str "INSUFFICIENT_PERMISSIONS"),
                        ("requiredRoles", .arr (roles.map Json.str)),
                        ("userRole", .str u.role)]⟩

/-! ## Ratings routes (routes/ratings.js)

Request bodies are modelled field by field: an absent JSON field is `none`.
A rating value arrives as `ℚ` (an arbitrary JS number); `validateObjectId`
route parameters are modelled as `Nat`, since every well-formed ObjectId
passes `isMongoId` and malformed ones are rejected before any handler
runs. -/

/-- `validateRating` (validation.js lines 105-121): rating an integer in
1..5, comment optional / trimmed in place / at most 500 chars, storeId a
Mongo id (modelled: present).  Returns the request body as the handler sees
it (comment trimmed), or `none` if `handleValidationErrors` fires. -/
def validateRatingBody (storeId? : Option Nat) (rating? : Option ℚ)
    (comment? : Option String) : Option (Nat × ℚ × Option String) :=
  match storeId?, rating? with
  | some sid, some q =>
    if isIntQ q && 1 ≤ q && q ≤ 5 &&
        (match comment? with
         | none => true
         | some c => strLen (jsTrim c) ≤ 500) then
      some (sid, q, comment?.map jsTrim)
    else none
  | _, _ => none

/-- The success payload of POST / PUT rating handlers. -/
def ratingRespBody (msg : String) (r : Rating) (timeKey : String)
    (time : Nat) : Json :=
  .obj [("message", .str msg),
        ("rating", .obj [("id", jsonId r.id), ("rating", .num r.rating),
                         ("comment", .str r.comment),
                         ("storeId", jsonId r.storeId),
                         (timeKey, .num time)])]

/-- POST /api/ratings (ratings.js lines 10-86): submit or update a rating,
normal users only.  A pre-existing rating by the caller for the store is
updated in place; otherwise a new document is created.  Saving fires the
post-save hook, which recomputes the store's counters. -/
def postRating (db : DB) (tok : Option Nat) (storeId? : Option Nat)
    (rating? : Option ℚ) (comment? : Option String) (now : Nat) : Resp × DB :=
  match authenticateToken db tok with
  | .error r => (r, db)
  | .ok user =>
    match authorize ["user"] user with
    | some r => (r, db)
    | none =>
      match validateRatingBody storeId? rating? comment? with
      | none => (validationFailedResp, db)
      | some (storeId, rating, commentT) =>
        let comment := commentT.getD ""
        match findStore db storeId with
        | none => (errResp 404 "Store not found" "STORE_NOT_FOUND", db)
        | some store =>
          if !store.isActive then
            (errResp 404 "Store not found" "STORE_NOT_FOUND", db)
          else
            match db.ratings.find? (fun r =>
                r.userId == user.id && r.storeId == storeId) with
            | some existing =>
              let upd := { existing with
                           rating := rating, comment := comment, updatedAt := now }
              if ratingDocValid upd then
                let db2 := ratingPostSaveHook (saveRating db upd) storeId now
                (⟨200, ratingRespBody "Rating updated successfully" upd
                        "updatedAt" upd.updatedAt⟩, db2)
              else (validationFailedResp, db)
            | none =>
              let newR : Rating :=
                ⟨db.nextId, user.id, storeId, rating, comment, now, now⟩
              if ratingDocValid newR then
                let db1 := { db with ratings := db.ratings ++ [newR],
                                     nextId := db.nextId + 1 }
                let db2 := ratingPostSaveHook db1 storeId now
                (⟨201, ratingRespBody "Rating submitted successfully" newR
                        "createdAt" newR.createdAt⟩, db2)
              else (validationFailedResp, db)

/-- JS truthiness of the `rating` body field (`if (rating) ...`): absent,
`null` and `0` are falsy. -/
def qTruthy (q? : Option ℚ) : Bool :=
  match q? with
  | none => false
  | some q => !(q == 0)

/-- PUT /api/ratings/:ratingId (ratings.js lines 171-235): update one's own
rating.  The range check and the assignment of `rating` are both guarded by
JS truthiness, so rating `0` or absent skips both; the comment is always
assigned (it is destructured with default `''`).  Saving fires the
post-save hook. -/
def putRating (db : DB) (tok : Option Nat) (ratingId : Nat)
    (rating? : Option ℚ) (comment? : Option String) (now : Nat) : Resp × DB :=
  match authenticateToken db tok with
  | .error r => (r, db)
  | .ok user =>
    match authorize ["user"] user with
    | some r => (r, db)
    | none =>
      if qTruthy rating? &&
          !(1 ≤ rating?.getD 0 && rating?.getD 0 ≤ 5 && isIntQ (rating?.getD 0)) then
        (errResp 400 "Rating must be an integer between 1 and 5" "INVALID_RATING", db)
      else
        match findRating db ratingId with
        | none => (errResp 404 "Rating not found" "RATING_NOT_FOUND", db)
        | some existing =>
          if !(existing.userId == user.id) then
            (errResp 403 "Access denied. You can only update your own ratings."
              "ACCESS_DENIED", db)
          else
            let r1 := if qTruthy rating? then
                        { existing with rating := rating?.getD 0 }
                      else existing
            let upd := { r1 with comment := jsTrim (comment?.getD ""),
                                 updatedAt := now }
            if ratingDocValid upd then
              let db2 := ratingPostSaveHook (saveRating db upd) upd.storeId now
              (⟨200, ratingRespBody "Rating updated successfully" upd
                      "updatedAt" upd.updatedAt⟩, db2)
            else (validationFailedResp, db)

/-- DELETE /api/ratings/:ratingId (ratings.js lines 238-272): admins may
delete any rating, normal users their own.  The route removes the document
with `Rating.findByIdAndDelete`, a query-level operation; the
store-recompute middleware of `ratingSchema` is registered as
`post('deleteOne', { document: true, query: false })`, i.e. only for
document-level `deleteOne()`, so it does not fire here and the store's
`averageRating`/`totalRatings` are left as they were. -/
def deleteRating (db : DB) (tok : Option Nat) (ratingId : Nat) : Resp × DB :=
  match authenticateToken db tok with
  | .error r => (r, db)
  | .ok user =>
    match findRating db ratingId with
    | none => (errResp 404 "Rating not found" "RATING_NOT_FOUND", db)
    | some rating =>
      let canDelete := user.role == "admin" ||
                       (user.role == "user" && rating.userId == user.id)
      if !canDelete then
        (errResp 403 "Access denied. You can only delete your own ratings."
          "ACCESS_DENIED", db)
      else
        (⟨200, .obj [("message", .str "Rating deleted successfully")]⟩,
         { db with ratings := db.ratings.filter (fun r => !(r.id == ratingId)) })

/-- The `.sort({ averageRating: -1, totalRatings: -1 })` order of the
top-stores query. -/
def topStoreOrder (a b : Store) : Bool :=
  b.averageRating < a.averageRating ||
  (a.averageRating == b.averageRating && b.totalRatings ≤ a.totalRatings)

/-- GET /api/ratings/stats/overview (ratings.js lines 275-324), admin only:
global rating count, overall average rounded to one decimal, per-value
distribution, top ten active stores. -/
def ratingStats (db : DB) (tok : Option Nat) : Resp × DB :=
  match authenticateToken db tok with
  | .error r => (r, db)
  | .ok user =>
    match authorize ["admin"] user with
    | some r => (r, db)
    | none =>
      let total := db.ratings.length
      let overall : ℚ :=
        if 0 < total then
          roundTenths ((db.ratings.map (fun r => r.rating)).sum / (total : ℚ))
        else 0
      let bucket (v : ℚ) : Json :=
        .num ((db.ratings.filter (fun r => r.rating == v)).length : ℚ)
      let top := (sortBy topStoreOrder (db.stores.filter (fun s => s.isActive))).take 10
      (⟨200, .obj [("message", .str "Rating statistics retrieved successfully"),
                   ("stats", .obj
                     [("totalRatings", .num (total : ℚ)),
                      ("overallAverageRating", .num overall),
                      ("ratingDistribution", .obj
                        [("5", bucket 5), ("4", bucket 4), ("3", bucket 3),
                         ("2", bucket 2), ("1", bucket 1)]),
                      ("topStores", .arr (top.map (fun s =>
                        .obj [("_id", jsonId s.id), ("name", .str s.name),
                              ("averageRating", .num s.averageRating),
                              ("totalRatings", .num (s.totalRatings : ℚ)),
                              ("id", jsonId s.id)])))])]⟩, db)

/-! ## Auth routes (routes/auth.js) -/

/-- `validateUserRegistration` (validation.js lines 22-50): name trimmed
10-60, email valid and normalized, password 8-16 with complexity, address
trimmed 1-400, role optional in the enum.  Trimming/normalizing mutate the
body; the returned tuple is what the handler then destructures. -/
def validateUserRegBody (name? email? password? address? : Option String)
    (role? : Option String) : Option (String × String × String × String) :=
  match name?, email?, password?, address? with
  | some n, some e, some p, some a =>
    if 10 ≤ strLen (jsTrim n) && strLen (jsTrim n) ≤ 60 &&
        emailFormatOk e && passwordRuleOk p &&
        1 ≤ strLen (jsTrim a) && strLen (jsTrim a) ≤ 400 &&
        (match role? with | none => true | some r => roleEnumOk r) then
      some (jsTrim n, lowerStr e, p, jsTrim a)
    else none
  | _, _, _, _ => none

/-- POST /api/auth/register (auth.js lines 9-76): create a normal user.  The
role is forced to `user` regardless of the body; the pre-save hooks hash the
password and stamp timestamps; the response embeds a fresh token and an
explicitly constructed user object without the password. -/
def register (db : DB) (name? email? password? address? role? : Option String)
    (now : Nat) : Resp × DB :=
  match validateUserRegBody name? email? password? address? role? with
  | none => (validationFailedResp, db)
  | some (name, email, password, address) =>
    match db.users.find? (fun u => u.email == email) with
    | some _ => (errResp 400 "User already exists with this email" "USER_EXISTS", db)
    | none =>
      let plain : User :=
        ⟨db.nextId, name, email, password, address, "user", none, true, now, now⟩
      if userDocValid plain then
        let stored := { plain with password := bcryptHash password }
        let db1 := { db with users := db.users ++ [stored], nextId := db.nextId + 1 }
        (⟨201, .obj [("message", .str "User registered successfully"),
                     ("token", .str (generateToken stored.id stored.role)),
                     ("user", .obj [("id", jsonId stored.id),
                                    ("name", .str stored.name),
                                    ("email", .str stored.email),
                                    ("address", .str stored.address),
                                    ("role", .str stored.role),
                                    ("createdAt", .num stored.createdAt)])]⟩, db1)
      else (validationFailedResp, db)

/-- POST /api/auth/login (auth.js lines 79-123): credential check; inactive
or unknown users and wrong passwords get the same 401.  The response user
object is constructed explicitly without the password. -/
def login (db : DB) (email? password? : Option String) : Resp × DB :=
  match email?, password? with
  | some email, some password =>
    if emailFormatOk email && !(password == "") then
      match db.users.find? (fun u => u.email == lowerStr email) with
      | none => (errResp 401 "Invalid email or password" "INVALID_CREDENTIALS", db)
      | some user =>
        if !user.isActive then
          (errResp 401 "Invalid email or password" "INVALID_CREDENTIALS", db)
        else if !comparePassword password user.password then
          (errResp 401 "Invalid email or password" "INVALID_CREDENTIALS", db)
        else
          (⟨200, .obj [("message", .str "Login successful"),
                       ("token", .str (generateToken user.id user.role)),
                       ("user", .obj [("id", jsonId user.id),
                                      ("name", .str user.name),
                                      ("email", .str user.email),
                                      ("address", .str user.address),
                                      ("role", .str user.role),
                                      ("storeId", jsonOptId user.storeId)])]⟩, db)
    else (validationFailedResp, db)
  | _, _ => (validationFailedResp, db)

/-- `userSchema.methods.toJSON` (models/User.js lines 95-99): the document
as a plain object with the password field deleted.  `storeJson` is the
serialization of the `storeId` field (raw id or populated store). -/
def userToJSON (u : User) (storeJson : Json) : Json :=
  .obj [("_id", jsonId u.id), ("name", .str u.name), ("email", .str u.email),
        ("address", .str u.address), ("role", .str u.role),
        ("storeId", storeJson), ("isActive", .bool u.isActive),
        ("createdAt", .num (u.createdAt : ℚ)),
        ("updatedAt", .num (u.updatedAt : ℚ))]

/-- The `populate('storeId', 'name email address averageRating')` payload of
the profile route. -/
def storeJsonProfile (db : DB) (sid? : Option Nat) : Json :=
  match sid? with
  | none => .null
  | some sid =>
    match findStore db sid with
    | none => .null
    | some s => .obj [("_id", jsonId s.id), ("name", .str s.name),
                      ("email", .str s.email), ("address", .str s.address),
                      ("averageRating", .num s.averageRating),
                      ("id", jsonId s.id)]

/-- GET /api/auth/profile (auth.js lines 126-141): the caller's user
document, with `storeId` populated, serialized through `toJSON`. -/
def getProfile (db : DB) (tok : Option Nat) : Resp × DB :=
  match authenticateToken db tok with
  | .error r => (r, db)
  | .ok user =>
    (⟨200, .obj [("message", .str "Profile retrieved successfully"),
                 ("user", userToJSON user (storeJsonProfile db user.storeId))]⟩, db)

/-- GET /api/auth/verify (auth.js lines 195-200): echoes `req.user`, which
`authenticateToken` fetched with `select('-password')`. -/
def verifyToken (db : DB) (tok : Option Nat) : Resp × DB :=
  match authenticateToken db tok with
  | .error r => (r, db)
  | .ok user =>
    (⟨200, .obj [("message", .str "Token is valid"),
                 ("user", userToJSON user (jsonOptId user.storeId))]⟩, db)

/-- PATCH /api/auth/password (auth.js lines 144-192): verify the current
password, set the new one; the pre-save hook hashes it. -/
def patchPassword (db : DB) (tok : Option Nat)
    (currentPassword? newPassword? : Option String) (now : Nat) : Resp × DB :=
  match authenticateToken db tok with
  | .error r => (r, db)
  | .ok user =>
    match currentPassword?, newPassword? with
    | some currentPassword, some newPassword =>
      if !(currentPassword == "") && passwordRuleOk newPassword then
        if !comparePassword currentPassword user.password then
          (errResp 400 "Current password is incorrect" "INVALID_CURRENT_PASSWORD", db)
        else
          let upd := { user with password := bcryptHash newPassword, updatedAt := now }
          (⟨200, .obj [("message", .str "Password updated successfully")]⟩,
           saveUser db upd)
      else (validationFailedResp, db)
    | _, _ => (validationFailedResp, db)

/-! ## Users routes (routes/users.js) -/

/-- `validateAdminUserCreation` (validation.js lines 175-202): like
registration but the role is required. -/
def validateAdminUserBody (name? email? password? address? role? : Option String) :
    Option (String × String × String × String × String) :=
  match name?, email?, password?, address?, role? with
  | some n, some e, some p, some a, some r =>
    if 10 ≤ strLen (jsTrim n) && strLen (jsTrim n) ≤ 60 &&
        emailFormatOk e && passwordRuleOk p &&
        1 ≤ strLen (jsTrim a) && strLen (jsTrim a) ≤ 400 && roleEnumOk r then
      some (jsTrim n, lowerStr e, p, jsTrim a, r)
    else none
  | _, _, _, _, _ => none

/-- POST /api/users (users.js lines 42-102), admin only: create a user with
an arbitrary role. -/
def createUser (db : DB) (tok : Option Nat)
    (name? email? password? address? role? : Option String) (now : Nat) : Resp × DB :=
  match authenticateToken db tok with
  | .error r => (r, db)
  | .ok caller =>
    match authorize ["admin"] caller with
    | some r => (r, db)
    | none =>
      match validateAdminUserBody name? email? password? address? role? with
      | none => (validationFailedResp, db)
      | some (name, email, password, address, role) =>
        match db.users.find? (fun u => u.email == email) with
        | some _ => (errResp 400 "User already exists with this email" "USER_EXISTS", db)
        | none =>
          let plain : User :=
            ⟨db.nextId, name, email, password, address, role, none, true, now, now⟩
          if userDocValid plain then
            let stored := { plain with password := bcryptHash password }
            let db1 := { db with users := db.users ++ [stored],
                                 nextId := db.nextId + 1 }
            (⟨201, .obj [("message", .str "User created successfully"),
                         ("user", .obj [("id", jsonId stored.id),
                                        ("name", .str stored.name),
                                        ("email", .str stored.email),
                                        ("address", .str stored.address),
                                        ("role", .str stored.role),
                                        ("createdAt", .num (stored.createdAt : ℚ))])]⟩,
             db1)
          else (validationFailedResp, db)

/-- The `populate('storeId', 'name averageRating')` payload of the user
list route. -/
def storeJsonUserList (db : DB) (sid? : Option Nat) : Json :=
  match sid? with
  | none => .null
  | some sid =>
    match findStore db sid with
    | none => .null
    | some s => .obj [("_id", jsonId s.id), ("name", .str s.name),
                      ("averageRating", .num s.averageRating),
                      ("id", jsonId s.id)]

/-- The user-list filter (users.js lines 112-125): active users matching the
optional case-insensitive name/email/address filters and exact role. -/
def userListFilter (name? email? address? role? : Option String) (u : User) : Bool :=
  u.isActive &&
  (match name? with | none => true | some q => iContains u.name q) &&
  (match email? with | none => true | some q => iContains u.email q) &&
  (match address? with | none => true | some q => iContains u.address q) &&
  (match role? with | none => true | some q => u.role == q)

/-- `validatePagination` and `validateSearch` (validation.js lines 124-163)
for the list routes. -/
def paginationSearchOk (page? limit? : Option Nat)
    (name? email? address? role? : Option String) : Bool :=
  (match page? with | none => true | some p => 1 ≤ p) &&
  (match limit? with | none => true | some l => 1 ≤ l && l ≤ 100) &&
  (match name? with | none => true | some q => 1 ≤ strLen (jsTrim q)) &&
  (match email? with | none => true | some q => emailFormatOk q) &&
  (match address? with | none => true | some q => 1 ≤ strLen (jsTrim q)) &&
  (match role? with | none => true | some q => roleEnumOk q)

/-- The `createdAt` descending sort of the list routes. -/
def createdDescUser (a b : User) : Bool := b.createdAt ≤ a.createdAt

/-- The pagination metadata object shared by the list routes. -/
def paginationJson (page limit totalCount : Nat) : Json :=
  let totalPages := (totalCount + limit - 1) / limit
  .obj [("currentPage", .num (page : ℚ)), ("totalPages", .num (totalPages : ℚ)),
        ("totalCount", .num (totalCount : ℚ)),
        ("hasNextPage", .bool (decide (page < totalPages))),
        ("hasPrevPage", .bool (decide (1 < page)))]

/-- GET /api/users (users.js lines 105-157), admin only: filtered page of
users, fetched with `select('-password')` and `storeId` populated. -/
def listUsers (db : DB) (tok : Option Nat) (page? limit? : Option Nat)
    (name? email? address? role? : Option String) : Resp × DB :=
  match authenticateToken db tok with
  | .error r => (r, db)
  | .ok caller =>
    match authorize ["admin"] caller with
    | some r => (r, db)
    | none =>
      if !paginationSearchOk page? limit? name? email? address? role? then
        (validationFailedResp, db)
      else
        let page := page?.getD 1
        let limit := limit?.getD 10
        let matching := db.users.filter (userListFilter name? email? address? role?)
        let pageUsers := ((sortBy createdDescUser matching).drop ((page - 1) * limit)).take limit
        (⟨200, .obj [("message", .str "Users retrieved successfully"),
                     ("users", .arr (pageUsers.map (fun u =>
                       userToJSON u (storeJsonUserList db u.storeId)))),
                     ("pagination", paginationJson page limit matching.length)]⟩, db)

/-- The `populate('storeId', 'name email address averageRating totalRatings')`
payload of the single-user route. -/
def storeJsonUserDetail (db : DB) (sid? : Option Nat) : Json :=
  match sid? with
  | none => .null
  | some sid =>
    match findStore db sid with
    | none => .null
    | some s => .obj [("_id", jsonId s.id), ("name", .str s.name),
                      ("email", .str s.email), ("address", .str s.address),
                      ("averageRating", .num s.averageRating),
                      ("totalRatings", .num (s.totalRatings : ℚ)),
                      ("id", jsonId s.id)]

/-- A rating serialized with its rater populated
(`populate('userId', 'name email')`). -/
def ratingJsonWithRater (db : DB) (r : Rating) : Json :=
  .obj [("_id", jsonId r.id),
        ("userId", match findUser db r.userId with
                   | none => .null
                   | some u => .obj [("_id", jsonId u.id), ("name", .str u.name),
                                     ("email", .str u.email), ("id", jsonId u.id)]),
        ("storeId", jsonId r.storeId), ("rating", .num r.rating),
        ("comment", .str r.comment), ("createdAt", .num (r.createdAt : ℚ)),
        ("updatedAt", .num (r.updatedAt : ℚ)), ("id", jsonId r.id)]

/-- The `createdAt` descending sort of rating lists. -/
def createdDescRating (a b : Rating) : Bool := b.createdAt ≤ a.createdAt

/-- GET /api/users/:userId (users.js lines 160-203), admin only: one active
user (password deselected, store populated); for store owners also their
store's object with rating count and five most recent ratings. -/
def getUser (db : DB) (tok : Option Nat) (userId : Nat) : Resp × DB :=
  match authenticateToken db tok with
  | .error r => (r, db)
  | .ok caller =>
    match authorize ["admin"] caller with
    | some r => (r, db)
    | none =>
      match findUser db userId with
      | none => (errResp 404 "User not found" "USER_NOT_FOUND", db)
      | some user =>
        if !user.isActive then
          (errResp 404 "User not found" "USER_NOT_FOUND", db)
        else
          let userJson := userToJSON user (storeJsonUserDetail db user.storeId)
          let extra : List (String × Json) :=
            match user.storeId with
            | some sid =>
              if user.role == "storeOwner" then
                match findStore db sid with
                | none => []
                | some s =>
                  let rs := storeRatings db s.id
                  [("store", .obj
                    [("_id", jsonId s.id), ("name", .str s.name),
                     ("email", .str s.email), ("address", .str s.address),
                     ("averageRating", .num s.averageRating),
                     ("totalRatings", .num (s.totalRatings : ℚ)),
                     ("id", jsonId s.id),
                     ("ratingsCount", .num (rs.length : ℚ)),
                     ("recentRatings", .arr ((sortBy createdDescRating rs).take 5
                       |>.map (ratingJsonWithRater db)))])]
              else []
            | none => []
          (⟨200, .obj ([("message", .str "User retrieved successfully"),
                        ("user", userJson)] ++ extra)⟩, db)

/-- JS truthiness of an optional string body field: absent and `''` are
falsy. -/
def sTruthy (s? : Option String) : Bool :=
  match s? with
  | none => false
  | some s => !(s == "")

/-- PUT /api/users/:userId (users.js lines 206-269), admin only: update the
truthy fields of the body (name/email/address/role, `isActive` when it is a
boolean); the mongoose setters trim/lowercase and save re-validates the
document.  The target is found by id alone, so an inactive user can be
updated — in particular reactivated. -/
def updateUser (db : DB) (tok : Option Nat) (userId : Nat)
    (name? email? address? role? : Option String) (isActive? : Option Bool)
    (now : Nat) : Resp × DB :=
  match authenticateToken db tok with
  | .error r => (r, db)
  | .ok caller =>
    match authorize ["admin"] caller with
    | some r => (r, db)
    | none =>
      match findUser db userId with
      | none => (errResp 404 "User not found" "USER_NOT_FOUND", db)
      | some user =>
        let emailTaken : Bool :=
          match email? with
          | some e =>
            if !(e == user.email) then
              (db.users.filter (fun u => !(u.id == user.id))).any
                (fun u => u.email == e)
            else false
          | none => false
        if emailTaken then (errResp 400 "Email already exists" "EMAIL_EXISTS", db)
        else
          let u1 := if sTruthy name? then { user with name := jsTrim (name?.getD "") }
                    else user
          let u2 := if sTruthy email? then { u1 with email := lowerStr (email?.getD "") }
                    else u1
          let u3 := if sTruthy address? then
                      { u2 with address := jsTrim (address?.getD "") }
                    else u2
          let u4 := if sTruthy role? then { u3 with role := role?.getD "" } else u3
          let u5 := match isActive? with
                    | some b => { u4 with isActive := b }
                    | none => u4
          let upd := { u5 with updatedAt := now }
          if userDocValid upd then
            (⟨200, .obj [("message", .str "User updated successfully"),
                         ("user", .obj [("id", jsonId upd.id),
                                        ("name", .str upd.name),
                                        ("email", .str upd.email),
                                        ("address", .str upd.address),
                                        ("role", .str upd.role),
                                        ("isActive", .bool upd.isActive),
                                        ("updatedAt", .num (upd.updatedAt : ℚ))])]⟩,
             saveUser db upd)
          else (validationFailedResp, db)

/-- DELETE /api/users/:userId (users.js lines 272-296), admin only: soft
delete — set `isActive` to false and save (the pre-save hook stamps
`updatedAt`); the document stays in the collection. -/
def deleteUser (db : DB) (tok : Option Nat) (userId : Nat) (now : Nat) : Resp × DB :=
  match authenticateToken db tok with
  | .error r => (r, db)
  | .ok caller =>
    match authorize ["admin"] caller with
    | some r => (r, db)
    | none =>
      match findUser db userId with
      | none => (errResp 404 "User not found" "USER_NOT_FOUND", db)
      | some user =>
        let upd := { user with isActive := false, updatedAt := now }
        if userDocValid upd then
          (⟨200, .obj [("message", .str "User deleted successfully")]⟩,
           saveUser db upd)
        else (errResp 500 "Server error deleting user" "SERVER_ERROR", db)

/-! ## Stores routes (routes/stores.js) -/

/-- `validateStore` (validation.js lines 80-102): name trimmed 10-60, email
valid and normalized, address trimmed 1-400, ownerId an optional Mongo id. -/
def validateStoreBody (name? email? address? : Option String) :
    Option (String × String × String) :=
  match name?, email?, address? with
  | some n, some e, some a =>
    if 10 ≤ strLen (jsTrim n) && strLen (jsTrim n) ≤ 60 && emailFormatOk e &&
        1 ≤ strLen (jsTrim a) && strLen (jsTrim a) ≤ 400 then
      some (jsTrim n, lowerStr e, jsTrim a)
    else none
  | _, _, _ => none

/-- The store payload of the create/update store responses. -/
def storeRespJson (s : Store) (timeKey : String) (time : Nat) : Json :=
  .obj [("id", jsonId s.id), ("name", .str s.name), ("email", .str s.email),
        ("address", .str s.address), ("ownerId", jsonId s.ownerId),
        ("averageRating", .num s.averageRating),
        ("totalRatings", .num (s.totalRatings : ℚ)),
        (timeKey, .num (time : ℚ))]

/-- POST /api/stores (stores.js), admin only: create a store for an existing
store-owner user who does not have one yet, then point the owner's `storeId`
at it. -/
def createStore (db : DB) (tok : Option Nat)
    (name? email? address? : Option String) (ownerId? : Option Nat)
    (now : Nat) : Resp × DB :=
  match authenticateToken db tok with
  | .error r => (r, db)
  | .ok caller =>
    match authorize ["admin"] caller with
    | some r => (r, db)
    | none =>
      match validateStoreBody name? email? address? with
      | none => (validationFailedResp, db)
      | some (name, email, address) =>
        if (db.stores.any (fun s => s.email == email)) then
          (errResp 400 "Store already exists with this email" "STORE_EXISTS", db)
        else
          match ownerId?.bind (findUser db) with
          | none => (errResp 400 "Invalid store owner" "INVALID_OWNER", db)
          | some owner =>
            if !(owner.role == "storeOwner") then
              (errResp 400 "Invalid store owner" "INVALID_OWNER", db)
            else if db.stores.any (fun s => s.ownerId == owner.id) then
              (errResp 400 "Store owner already has a store" "OWNER_HAS_STORE", db)
            else
              let store : Store :=
                ⟨db.nextId, name, email, address, owner.id, 0, 0, true, now, now⟩
              if storeDocValid store then
                let db1 := { db with stores := db.stores ++ [store],
                                     nextId := db.nextId + 1 }
                let db2 := saveUser db1
                  { owner with storeId := some store.id, updatedAt := now }
                (⟨201, .obj [("message", .str "Store created successfully"),
                             ("store", storeRespJson store "createdAt" store.createdAt)]⟩,
                 db2)
              else (validationFailedResp, db)

/-- PUT /api/stores/:storeId (stores.js), admin only: update the truthy
name/email/address fields; save re-validates. -/
def updateStore (db : DB) (tok : Option Nat) (storeId : Nat)
    (name? email? address? : Option String) (now : Nat) : Resp × DB :=
  match authenticateToken db tok with
  | .error r => (r, db)
  | .ok caller =>
    match authorize ["admin"] caller with
    | some r => (r, db)
    | none =>
      match findStore db storeId with
      | none => (errResp 404 "Store not found" "STORE_NOT_FOUND", db)
      | some store =>
        let emailTaken : Bool :=
          match email? with
          | some e =>
            if !(e == store.email) then
              (db.stores.filter (fun s => !(s.id == store.id))).any
                (fun s => s.email == e)
            else false
          | none => false
        if emailTaken then (errResp 400 "Email already exists" "EMAIL_EXISTS", db)
        else
          let s1 := if sTruthy name? then { store with name := jsTrim (name?.getD "") }
                    else store
          let s2 := if sTruthy email? then { s1 with email := lowerStr (email?.getD "") }
                    else s1
          let s3 := if sTruthy address? then
                      { s2 with address := jsTrim (address?.getD "") }
                    else s2
          let upd := { s3 with updatedAt := now }
          if storeDocValid upd then
            (⟨200, .obj [("message", .str "Store updated successfully"),
                         ("store", storeRespJson upd "updatedAt" upd.updatedAt)]⟩,
             saveStore db upd)
          else (validationFailedResp, db)

/-- DELETE /api/stores/:storeId (stores.js), admin only: soft delete — set
`isActive` to false and save, then null the owner's `storeId` with
`findByIdAndUpdate` (a query update: no save middleware runs on the owner
document). -/
def deleteStore (db : DB) (tok : Option Nat) (storeId : Nat) (now : Nat) : Resp × DB :=
  match authenticateToken db tok with
  | .error r => (r, db)
  | .ok caller =>
    match authorize ["admin"] caller with
    | some r => (r, db)
    | none =>
      match findStore db storeId with
      | none => (errResp 404 "Store not found" "STORE_NOT_FOUND", db)
      | some store =>
        let upd := { store with isActive := false, updatedAt := now }
        if storeDocValid upd then
          let db1 := saveStore db upd
          let db2 := { db1 with users := db1.users.map (fun u =>
            if u.id == store.ownerId then { u with storeId := none } else u) }
          (⟨200, .obj [("message", .str "Store deleted successfully")]⟩, db2)
        else (errResp 500 "Server error deleting store" "SERVER_ERROR", db)

/-! ## The request dispatcher -/

/-- One API request, with its authentication token (`none` = no token,
`some uid` = a valid unexpired JWT for user `uid`) and body fields. -/
inductive Req where
  | register (name email password address role : Option String)
  | login (email password : Option String)
  | getProfile (tok : Option Nat)
  | verifyToken (tok : Option Nat)
  | patchPassword (tok : Option Nat) (currentPassword newPassword : Option String)
  | createUser (tok : Option Nat) (name email password address role : Option String)
  | listUsers (tok : Option Nat) (page limit : Option Nat)
      (name email address role : Option String)
  | getUser (tok : Option Nat) (userId : Nat)
  | updateUser (tok : Option Nat) (userId : Nat)
      (name email address role : Option String) (isActive : Option Bool)
  | deleteUser (tok : Option Nat) (userId : Nat)
  | createStore (tok : Option Nat) (name email address : Option String)
      (ownerId : Option Nat)
  | updateStore (tok : Option Nat) (storeId : Nat) (name email address : Option String)
  | deleteStore (tok : Option Nat) (storeId : Nat)
  | postRating (tok : Option Nat) (storeId : Option Nat) (rating : Option ℚ)
      (comment : Option String)
  | putRating (tok : Option Nat) (ratingId : Nat) (rating : Option ℚ)
      (comment : Option String)
  | deleteRating (tok : Option Nat) (ratingId : Nat)
  | ratingStats (tok : Option Nat)

/-- Dispatch one request against the database at time `now`. -/
def applyReq (db : DB) (req : Req) (now : Nat) : Resp × DB :=
  match req with
  | .register n e p a r => register db n e p a r now
  | .login e p => login db e p
  | .getProfile tok => getProfile db tok
  | .verifyToken tok => verifyToken db tok
  | .patchPassword tok c n => patchPassword db tok c n now
  | .createUser tok n e p a r => createUser db tok n e p a r now
  | .listUsers tok pg lim n e a r => listUsers db tok pg lim n e a r
  | .getUser tok uid => getUser db tok uid
  | .updateUser tok uid n e a r act => updateUser db tok uid n e a r act now
  | .deleteUser tok uid => deleteUser db tok uid now
  | .createStore tok n e a o => createStore db tok n e a o now
  | .updateStore tok sid n e a => updateStore db tok sid n e a now
  | .deleteStore tok sid => deleteStore db tok sid now
  | .postRating tok sid r c => postRating db tok sid r c now
  | .putRating tok rid r c => putRating db tok rid r c now
  | .deleteRating tok rid => deleteRating db tok rid
  | .ratingStats tok => ratingStats db tok

/-- The database after a sequence of requests (each with its timestamp). -/
def applySeq (db : DB) : List (Req × Nat) → DB
  | [] => db
  | (req, now) :: rest => applySeq (applyReq db req now).2 rest

/-! ## The store-aggregate invariant (claims C1, C2) -/

/-- A store's denormalized counters agree with its rating documents:
`totalRatings` is their count and `averageRating` their mean rounded to one
decimal place (0 and 0 when there are none). -/
def storeAgg (db : DB) (s : Store) : Prop :=
  s.totalRatings = (storeRatings db s.id).length ∧
  s.averageRating =
    (if (storeRatings db s.id).length = 0 then 0
     else roundTenths (((storeRatings db s.id).map (fun r => r.rating)).sum /
                       ((storeRatings db s.id).length : ℚ)))

lemma updateRating_id (s : Store) (db : DB) (now : Nat) :
    (s.updateRating db now).id = s.id := by
  simp only [Store.updateRating]
  split <;> rfl

lemma updateRating_agg (s : Store) (db : DB) (now : Nat) :
    storeAgg db (s.updateRating db now) := by
  unfold storeAgg
  rw [updateRating_id]
  simp only [Store.updateRating]
  by_cases h : (storeRatings db s.id).length = 0
  · simp [h]
  · simp [h, Nat.pos_of_ne_zero h]

lemma storeRatings_congr (db1 db2 : DB) (sid : Nat)
    (h : db1.ratings = db2.ratings) : storeRatings db1 sid = storeRatings db2 sid := by
  unfold storeRatings
  rw [h]

lemma storeAgg_congr (db1 db2 : DB) (s : Store) (h : db1.ratings = db2.ratings) :
    storeAgg db1 s → storeAgg db2 s := by
  unfold storeAgg
  rw [storeRatings_congr db1 db2 s.id h]
  exact id

lemma hook_ratings (db : DB) (sid now : Nat) :
    (ratingPostSaveHook db sid now).ratings = db.ratings := by
  unfold ratingPostSaveHook
  split <;> rfl

lemma find?_map_replace_store (l : List Store) (sid : Nat) (s t : Store)
    (hfind : l.find? (fun x => x.id == sid) = some t) (hid : s.id = sid) :
    (l.map (fun x => if x.id == s.id then s else x)).find?
      (fun x => x.id == sid) = some s := by
  induction l with
  | nil => simp at hfind
  | cons a l ih =>
    by_cases h : a.id = sid
    · have hbeq : (a.id == s.id) = true := by simp [h, hid]
      simp only [List.map_cons, hbeq, if_pos rfl, if_true]
      have : (s.id == sid) = true := by simp [hid]
      simp [List.find?_cons, this]
    · have hbeq : (a.id == s.id) = false := by simp [hid]; exact fun hc => h hc
      have hpa : (a.id == sid) = false := by simp; exact h
      simp only [List.find?_cons, hpa] at hfind
      simp only [List.map_cons, hbeq, if_neg, Bool.false_eq_true, not_false_iff,
        List.find?_cons, hpa]
      exact ih hfind

lemma findStore_hook (db : DB) (sid : Nat) (t : Store) (now : Nat)
    (h : findStore db sid = some t) :
    findStore (ratingPostSaveHook db sid now) sid =
      some (t.updateRating db now) := by
  have hid : t.id = sid := by
    have := List.find?_some h
    simpa using this
  unfold ratingPostSaveHook
  rw [h]
  unfold findStore saveStore
  exact find?_map_replace_store db.stores sid (t.updateRating db now) t h
    (by rw [updateRating_id, hid])

lemma validateRatingBody_storeId (sid : Nat) (r? : Option ℚ) (c? : Option String)
    (st : Nat) (q : ℚ) (ct : Option String)
    (h : validateRatingBody (some sid) r? c? = some (st, q, ct)) : st = sid := by
  unfold validateRatingBody at h
  cases r? with
  | none => simp at h
  | some v =>
    simp only at h
    split at h
    · simp at h
      exact h.1.symm
    · simp at h

/-- Claim C1.  After every successful POST /api/ratings (create or update of
the caller's rating), the target store's `averageRating` equals the mean of
that store's rating documents rounded to one decimal place and
`totalRatings` equals their count (0 and 0 when there are none): the
post-save hook recomputes both from the post-state rating collection. -/
theorem c1_post_rating_recomputes_store (db : DB) (tok : Option Nat)
    (sid? : Option Nat) (r? : Option ℚ) (c? : Option String) (now : Nat)
    (out : Resp × DB) (hout : postRating db tok sid? r? c? now = out)
    (sid : Nat) (hsid : sid? = some sid)
    (hst : out.1.status = 200 ∨ out.1.status = 201) :
    ∃ s, findStore out.2 sid = some s ∧ storeAgg out.2 s := by
  subst hsid
  simp only [postRating] at hout
  split at hout
  · rename_i r heq
    rw [← hout] at hst
    rcases tok with _ | uid <;> simp [authenticateToken] at heq
    · rw [← heq] at hst
      simp [errResp] at hst
    · rcases hfu : findUser db uid with _ | u <;> rw [hfu] at heq
      · simp at heq
        rw [← heq] at hst
        simp [errResp] at hst
      · simp at heq
        split at heq
        · simp at heq
        · simp at heq
          rw [← heq] at hst
          simp [errResp] at hst
  · rename_i user heq
    split at hout
    · rename_i r hauth
      unfold authorize at hauth
      split at hauth
      · simp at hauth
      · simp at hauth
        rw [← hauth] at hout
        rw [← hout] at hst
        simp at hst
    · split at hout
      · rw [← hout] at hst
        simp [validationFailedResp] at hst
      · rename_i st q ct hval
        have hst_eq : st = sid := validateRatingBody_storeId sid r? c? st q ct hval
        subst hst_eq
        split at hout
        · rw [← hout] at hst
          simp [errResp] at hst
        · rename_i store hfnd
          split at hout
          · rw [← hout] at hst
            simp [errResp] at hst
          · split at hout
            · rename_i existing hex
              split at hout
              · rename_i hvalid
                rw [← hout]
                refine ⟨_, findStore_hook _ st store now hfnd, ?_⟩
                exact storeAgg_congr _ _ _ (hook_ratings _ st now).symm
                  (updateRating_agg store _ now)
              · rw [← hout] at hst
                simp [validationFailedResp] at hst
            · split at hout
              · rename_i hvalid
                rw [← hout]
                refine ⟨_, findStore_hook _ st store now hfnd, ?_⟩
                exact storeAgg_congr _ _ _ (hook_ratings _ st now).symm
                  (updateRating_agg store _ now)
              · rw [← hout] at hst
                simp [validationFailedResp] at hst

/-! ## Concrete sample database for witnesses -/

/-- A sample admin (document fields chosen to pass every schema validator). -/
def adminW : User :=
  ⟨1, "Ada Administrator West", "admin@example.com", bcryptHash "Admin123!",
   "123 Admin Street, Admin City", "admin", none, true, 0, 0⟩

/-- A sample normal user. -/
def normalW : User :=
  ⟨2, "Norman Normal Customer", "user@example.com", bcryptHash "User1234!",
   "321 User Lane, Customer City", "user", none, true, 0, 0⟩

/-- A sample store owner, owning `storeW`. -/
def ownerW : User :=
  ⟨3, "Olivia Storefront Owner", "owner@example.com", bcryptHash "Owner123!",
   "456 Owner Avenue, Business District", "storeOwner", some 10, true, 0, 0⟩

/-- A sample store with one 5-star rating, counters consistent. -/
def storeW : Store :=
  ⟨10, "Tech Electronics Hub", "store@example.com", "100 Technology Drive",
   3, 5, 1, true, 0, 0⟩

/-- The single rating of `storeW`, submitted by `normalW`. -/
def ratingW : Rating := ⟨100, 2, 10, 5, "Great store!", 0, 0⟩

/-- The sample database. -/
def dbW : DB := ⟨[adminW, normalW, ownerW], [storeW], [ratingW], 200⟩

/-- Witness for C1: the normal user re-rates the store (update path); the
theorem applies with every hypothesis discharged at this concrete input. -/
theorem c1_witness :
    ((postRating dbW (some 2) (some 10) (some 4) none 5).1.status = 200 ∨
      (postRating dbW (some 2) (some 10) (some 4) none 5).1.status = 201) ∧
    ∃ s, findStore (postRating dbW (some 2) (some 10) (some 4) none 5).2 10 = some s ∧
      storeAgg (postRating dbW (some 2) (some 10) (some 4) none 5).2 s :=
  ⟨Or.inl (by decide),
   c1_post_rating_recomputes_store dbW (some 2) (some 10) (some 4) none 5 _ rfl 10
     rfl (Or.inl (by decide))⟩

/-- Claim C2.  Counter-evidence: deleting the only rating of `storeW`
through DELETE /api/ratings/:ratingId succeeds (HTTP 200) and removes the
rating document, but the store still reports `totalRatings = 1` and
`averageRating = 5`: `Rating.findByIdAndDelete` is a query operation, so the
`post('deleteOne', { document: true, query: false })` recompute middleware
never fires, and the claimed synchronous recomputation does not happen. -/
theorem c2_delete_rating_leaves_counters_stale :
    (deleteRating dbW (some 1) 100).1.status = 200 ∧
    (deleteRating dbW (some 1) 100).2.ratings = [] ∧
    (findStore (deleteRating dbW (some 1) 100).2 10).map Store.totalRatings = some 1 ∧
    (findStore (deleteRating dbW (some 1) 100).2 10).map Store.averageRating = some 5 ∧
    ¬ storeAgg (deleteRating dbW (some 1) 100).2 storeW := by
  refine ⟨by decide, by decide, by decide, by decide, ?_⟩
  intro h
  have := h.1
  simp [storeRatings] at this
  revert this
  decide

/-! ## Database well-formedness (claims C3, C4) -/

/-- At most one rating document per (userId, storeId) pair. -/
def ratingKeysUnique (db : DB) : Prop :=
  db.ratings.Pairwise (fun a b => ¬(a.userId = b.userId ∧ a.storeId = b.storeId))

/-- Rating ObjectIds are pairwise distinct. -/
def ratingIdsNodup (db : DB) : Prop :=
  (db.ratings.map (fun r => r.id)).Nodup

/-- Rating ObjectIds are below the fresh-id counter. -/
def ratingIdsBounded (db : DB) : Prop :=
  ∀ r ∈ db.ratings, r.id < db.nextId

/-- The rating-collection well-formedness invariant. -/
def ratingsWF (db : DB) : Prop :=
  ratingKeysUnique db ∧ ratingIdsNodup db ∧ ratingIdsBounded db

/-- Every stored rating document passes its schema validators and every
store's counters are within the schema bounds (claim C4's property). -/
def dbValid (db : DB) : Prop :=
  (∀ r ∈ db.ratings, ratingDocValid r = true) ∧
  (∀ s ∈ db.stores, 0 ≤ s.averageRating ∧ s.averageRating ≤ 5)

/-- The combined invariant preserved by every request. -/
def WF (db : DB) : Prop := ratingsWF db ∧ dbValid db

instance (db : DB) : Decidable (WF db) := by
  unfold WF ratingsWF ratingKeysUnique ratingIdsNodup ratingIdsBounded dbValid
  infer_instance

instance (db : DB) : Decidable (ratingKeysUnique db) := by
  unfold ratingKeysUnique
  infer_instance

lemma mem_of_map_ite {α : Type} {l : List α} {c : α → Bool} {s y : α}
    (hy : y ∈ l.map (fun x => if c x then s else x)) : y = s ∨ y ∈ l := by
  obtain ⟨x, hx, hxy⟩ := List.mem_map.mp hy
  by_cases h : c x = true
  · left
    rw [← hxy]
    simp [h]
  · right
    rw [← hxy]
    simp [h]
    exact hx

lemma sum_le_card_mul (l : List ℚ) (h : ∀ x ∈ l, x ≤ 5) :
    l.sum ≤ 5 * l.length := by
  induction l with
  | nil => simp
  | cons a t ih =>
    simp only [List.sum_cons, List.length_cons]
    have ha := h a (by simp)
    have ht := ih (fun x hx => h x (by simp [hx]))
    push_cast
    linarith

lemma card_le_sum (l : List ℚ) (h : ∀ x ∈ l, 1 ≤ x) :
    (l.length : ℚ) ≤ l.sum := by
  induction l with
  | nil => simp
  | cons a t ih =>
    simp only [List.sum_cons, List.length_cons]
    have ha := h a (by simp)
    have ht := ih (fun x hx => h x (by simp [hx]))
    push_cast
    linarith

lemma mean_bounds (l : List ℚ) (hne : l ≠ []) (h : ∀ x ∈ l, 1 ≤ x ∧ x ≤ 5) :
    1 ≤ l.sum / l.length ∧ l.sum / l.length ≤ 5 := by
  have hpos : (0:ℚ) < l.length := by
    have : 0 < l.length := List.length_pos.mpr hne
    exact_mod_cast this
  constructor
  · rw [le_div_iff₀ hpos]
    simpa using card_le_sum l (fun x hx => (h x hx).1)
  · rw [div_le_iff₀ hpos]
    have := sum_le_card_mul l (fun x hx => (h x hx).2)
    linarith

lemma roundTenths_bounds (x : ℚ) (h1 : 1 ≤ x) (h5 : x ≤ 5) :
    0 ≤ roundTenths x ∧ roundTenths x ≤ 5 := by
  unfold roundTenths jsRound
  have hlow : (10:ℤ) ≤ ⌊x * 10 + 1/2⌋ := by
    apply Int.le_floor.mpr
    push_cast
    linarith
  have hhigh : ⌊x * 10 + 1/2⌋ ≤ 50 := by
    have : ⌊x * 10 + 1/2⌋ < 51 := by
      apply Int.floor_lt.mpr
      push_cast
      linarith
    omega
  constructor
  · apply div_nonneg _ (by norm_num)
    have : (0:ℤ) ≤ ⌊x * 10 + 1/2⌋ := by omega
    exact_mod_cast this
  · rw [div_le_iff₀ (by norm_num : (0:ℚ) < 10)]
    have : ((⌊x * 10 + 1/2⌋ : ℤ) : ℚ) ≤ ((50 : ℤ) : ℚ) := by exact_mod_cast hhigh
    linarith

lemma ratingDocValid_bounds (r : Rating) (h : ratingDocValid r = true) :
    1 ≤ r.rating ∧ r.rating ≤ 5 := by
  simp [ratingDocValid] at h
  exact h.1.1

lemma updateRating_avg_bounds (s : Store) (db : DB) (now : Nat)
    (hvalid : ∀ r ∈ db.ratings, ratingDocValid r = true) :
    0 ≤ (s.updateRating db now).averageRating ∧
      (s.updateRating db now).averageRating ≤ 5 := by
  simp only [Store.updateRating]
  split
  · rename_i hpos
    have hmem : ∀ x ∈ (storeRatings db s.id).map (fun r => r.rating),
        1 ≤ x ∧ x ≤ 5 := by
      intro x hx
      obtain ⟨r, hr, rfl⟩ := List.mem_map.mp hx
      exact ratingDocValid_bounds r (hvalid r (List.mem_of_mem_filter hr))
    have hne : (storeRatings db s.id).map (fun r => r.rating) ≠ [] := by
      intro hc
      rw [List.map_eq_nil_iff] at hc
      rw [hc] at hpos
      simp at hpos
    have hmb := mean_bounds _ hne hmem
    rw [List.length_map] at hmb
    have := roundTenths_bounds _ hmb.1 hmb.2
    exact this
  · simp

lemma hook_nextId (db : DB) (sid now : Nat) :
    (ratingPostSaveHook db sid now).nextId = db.nextId := by
  unfold ratingPostSaveHook
  split <;> rfl

lemma hook_users (db : DB) (sid now : Nat) :
    (ratingPostSaveHook db sid now).users = db.users := by
  unfold ratingPostSaveHook
  split <;> rfl

lemma hook_WF (db : DB) (sid now : Nat) (h : WF db) :
    WF (ratingPostSaveHook db sid now) := by
  obtain ⟨⟨hkeys, hnodup, hbound⟩, hrv, hsv⟩ := h
  have hr := hook_ratings db sid now
  have hn := hook_nextId db sid now
  refine ⟨⟨?_, ?_, ?_⟩, ?_, ?_⟩
  · unfold ratingKeysUnique
    rw [hr]
    exact hkeys
  · unfold ratingIdsNodup
    rw [hr]
    exact hnodup
  · intro r hmem
    rw [hr] at hmem
    rw [hn]
    exact hbound r hmem
  · intro r hmem
    rw [hr] at hmem
    exact hrv r hmem
  · intro t ht
    unfold ratingPostSaveHook at ht
    split at ht
    · exact hsv t ht
    · rename_i s hs
      rcases mem_of_map_ite ht with hts | htm
      · subst hts
        exact updateRating_avg_bounds s db now hrv
      · exact hsv t htm

lemma saveRating_nextId (db : DB) (upd : Rating) :
    (saveRating db upd).nextId = db.nextId := rfl

lemma saveRating_stores (db : DB) (upd : Rating) :
    (saveRating db upd).stores = db.stores := rfl

lemma saveRating_WF (db : DB) (ex upd : Rating)
    (hmem : ex ∈ db.ratings) (hid : upd.id = ex.id)
    (hu : upd.userId = ex.userId) (hsid : upd.storeId = ex.storeId)
    (hval : ratingDocValid upd = true) (h : WF db) : WF (saveRating db upd) := by
  obtain ⟨⟨hkeys, hnodup, hbound⟩, hrv, hsv⟩ := h
  have hinj := List.inj_on_of_nodup_map hnodup
  have hfid : ∀ x : Rating, ((if x.id == upd.id then upd else x).id) = x.id := by
    intro x
    by_cases hc : (x.id == upd.id) = true
    · rw [if_pos hc]
      have : x.id = upd.id := by simpa using hc
      exact this.symm
    · rw [if_neg (by simp_all)]
  have hfkey : ∀ x ∈ db.ratings,
      (if x.id == upd.id then upd else x).userId = x.userId ∧
      (if x.id == upd.id then upd else x).storeId = x.storeId := by
    intro x hx
    by_cases hc : (x.id == upd.id) = true
    · have hxid : x.id = upd.id := by simpa using hc
      have hxex : x = ex := hinj hx hmem (by rw [hxid, hid])
      subst hxex
      rw [if_pos hc, hu, hsid]
      exact ⟨rfl, rfl⟩
    · rw [if_neg (by simp_all)]
      exact ⟨rfl, rfl⟩
  have hmapid : ((db.ratings.map (fun x => if x.id == upd.id then upd else x)).map
      (fun r => r.id)) = db.ratings.map (fun r => r.id) := by
    rw [List.map_map]
    exact List.map_congr_left (fun x _ => hfid x)
  refine ⟨⟨?_, ?_, ?_⟩, ?_, ?_⟩
  · unfold ratingKeysUnique saveRating
    apply List.pairwise_map.mpr
    apply hkeys.imp_of_mem
    intro a b ha hb hR
    obtain ⟨hu1, hs1⟩ := hfkey a ha
    obtain ⟨hu2, hs2⟩ := hfkey b hb
    rw [hu1, hs1, hu2, hs2]
    exact hR
  · unfold ratingIdsNodup saveRating
    rw [hmapid]
    exact hnodup
  · intro r hr
    rcases mem_of_map_ite hr with hru | hrm
    · subst hru
      rw [saveRating_nextId, hid]
      exact hbound ex hmem
    · rw [saveRating_nextId]
      exact hbound r hrm
  · intro r hr
    rcases mem_of_map_ite hr with hru | hrm
    · subst hru
      exact hval
    · exact hrv r hrm
  · intro t ht
    rw [saveRating_stores] at ht
    exact hsv t ht

/-- `WF` only looks at ratings, stores and the id counter, so it transfers
to any state whose ratings and stores agree and whose counter has not
decreased. -/
lemma WF_same (db db2 : DB) (h : WF db) (hr : db2.ratings = db.ratings)
    (hst : db2.stores = db.stores) (hn : db.nextId ≤ db2.nextId) : WF db2 := by
  obtain ⟨⟨hkeys, hnodup, hbound⟩, hrv, hsv⟩ := h
  refine ⟨⟨?_, ?_, ?_⟩, ?_, ?_⟩
  · unfold ratingKeysUnique
    rw [hr]
    exact hkeys
  · unfold ratingIdsNodup
    rw [hr]
    exact hnodup
  · intro r hmem
    rw [hr] at hmem
    exact lt_of_lt_of_le (hbound r hmem) hn
  · intro r hmem
    rw [hr] at hmem
    exact hrv r hmem
  · intro t ht
    rw [hst] at ht
    exact hsv t ht

lemma login_db (db : DB) (e p : Option String) : (login db e p).2 = db := by
  unfold login
  repeat' split
  all_goals rfl

lemma getProfile_db (db : DB) (tok : Option Nat) : (getProfile db tok).2 = db := by
  unfold getProfile
  repeat' split
  all_goals rfl

lemma verifyToken_db (db : DB) (tok : Option Nat) : (verifyToken db tok).2 = db := by
  unfold verifyToken
  repeat' split
  all_goals rfl

lemma listUsers_db (db : DB) (tok : Option Nat) (pg lim : Option Nat)
    (n e a r : Option String) : (listUsers db tok pg lim n e a r).2 = db := by
  simp only [listUsers]
  repeat' split
  all_goals rfl

lemma getUser_db (db : DB) (tok : Option Nat) (uid : Nat) :
    (getUser db tok uid).2 = db := by
  simp only [getUser]
  repeat' split
  all_goals rfl

lemma ratingStats_db (db : DB) (tok : Option Nat) : (ratingStats db tok).2 = db := by
  simp only [ratingStats]
  repeat' split
  all_goals rfl

lemma saveUser_rsn (db : DB) (u : User) :
    (saveUser db u).ratings = db.ratings ∧ (saveUser db u).stores = db.stores ∧
      (saveUser db u).nextId = db.nextId :=
  ⟨rfl, rfl, rfl⟩

lemma register_WF (db : DB) (n e p a r : Option String) (now : Nat) (h : WF db) :
    WF (register db n e p a r now).2 := by
  simp only [register]
  repeat' split
  all_goals first
    | exact h
    | exact WF_same db _ h rfl rfl (Nat.le_succ _)

lemma createUser_WF (db : DB) (tok : Option Nat) (n e p a r : Option String)
    (now : Nat) (h : WF db) : WF (createUser db tok n e p a r now).2 := by
  simp only [createUser]
  repeat' split
  all_goals first
    | exact h
    | exact WF_same db _ h rfl rfl (Nat.le_succ _)

lemma patchPassword_WF (db : DB) (tok : Option Nat) (c n : Option String)
    (now : Nat) (h : WF db) : WF (patchPassword db tok c n now).2 := by
  simp only [patchPassword]
  repeat' split
  all_goals first
    | exact h
    | exact WF_same db _ h rfl rfl (le_refl _)

lemma updateUser_WF (db : DB) (tok : Option Nat) (uid : Nat)
    (n e a r : Option String) (act : Option Bool) (now : Nat) (h : WF db) :
    WF (updateUser db tok uid n e a r act now).2 := by
  simp only [updateUser]
  repeat' split
  all_goals first
    | exact h
    | exact WF_same db _ h rfl rfl (le_refl _)

lemma deleteUser_WF (db : DB) (tok : Option Nat) (uid : Nat) (now : Nat)
    (h : WF db) : WF (deleteUser db tok uid now).2 := by
  simp only [deleteUser]
  repeat' split
  all_goals first
    | exact h
    | exact WF_same db _ h rfl rfl (le_refl _)

lemma saveStore_WF_avg (db : DB) (s : Store) (h : WF db)
    (havg : 0 ≤ s.averageRating ∧ s.averageRating ≤ 5) : WF (saveStore db s) := by
  obtain ⟨⟨hkeys, hnodup, hbound⟩, hrv, hsv⟩ := h
  refine ⟨⟨hkeys, hnodup, hbound⟩, hrv, ?_⟩
  intro t ht
  rcases mem_of_map_ite ht with hts | htm
  · subst hts
    exact havg
  · exact hsv t htm

lemma WF_saveStore_of_found (db : DB) (storeId : Nat) (store : Store)
    (hfnd : findStore db storeId = some store) (h : WF db) (s : Store)
    (havg : s.averageRating = store.averageRating) : WF (saveStore db s) := by
  have hmem : store ∈ db.stores := List.mem_of_find?_eq_some hfnd
  have hb := h.2.2 store hmem
  exact saveStore_WF_avg db s h (by rw [havg]; exact hb)

lemma updateStore_WF (db : DB) (tok : Option Nat) (storeId : Nat)
    (n e a : Option String) (now : Nat) (h : WF db) :
    WF (updateStore db tok storeId n e a now).2 := by
  simp only [updateStore]
  repeat' split
  all_goals try exact h
  all_goals refine WF_saveStore_of_found db storeId _ (by assumption) h _ ?_
  all_goals repeat' split
  all_goals rfl

lemma deleteStore_WF (db : DB) (tok : Option Nat) (storeId : Nat) (now : Nat)
    (h : WF db) : WF (deleteStore db tok storeId now).2 := by
  simp only [deleteStore]
  split
  · exact h
  split
  · exact h
  split
  · exact h
  rename_i store hfnd
  split
  · have hmem : store ∈ db.stores := List.mem_of_find?_eq_some hfnd
    have hb := h.2.2 store hmem
    have h1 := saveStore_WF_avg db { store with isActive := false, updatedAt := now }
      h ⟨hb.1, hb.2⟩
    exact WF_same _ _ h1 rfl rfl (le_refl _)
  · exact h

lemma WF_append_store (db : DB) (s : Store) (h : WF db)
    (havg : 0 ≤ s.averageRating ∧ s.averageRating ≤ 5) :
    WF { db with stores := db.stores ++ [s], nextId := db.nextId + 1 } := by
  obtain ⟨⟨hkeys, hnodup, hbound⟩, hrv, hsv⟩ := h
  refine ⟨⟨hkeys, hnodup, ?_⟩, hrv, ?_⟩
  · intro r hmem
    exact lt_of_lt_of_le (hbound r hmem) (Nat.le_succ _)
  · intro t ht
    rcases List.mem_append.mp ht with htm | hts
    · exact hsv t htm
    · simp at hts
      subst hts
      exact havg

lemma createStore_WF (db : DB) (tok : Option Nat) (n e a : Option String)
    (o : Option Nat) (now : Nat) (h : WF db) :
    WF (createStore db tok n e a o now).2 := by
  simp only [createStore]
  split
  · exact h
  split
  · exact h
  split
  · exact h
  split
  · exact h
  split
  · exact h
  split
  · exact h
  split
  · exact h
  split
  · refine WF_same _ _ (WF_append_store db _ h ⟨le_refl 0, by norm_num⟩) rfl rfl
      (le_refl _)
  · exact h

lemma WF_append_rating (db : DB) (r : Rating) (h : WF db)
    (hid : r.id = db.nextId)
    (hkey : ∀ x ∈ db.ratings, ¬(x.userId = r.userId ∧ x.storeId = r.storeId))
    (hval : ratingDocValid r = true) :
    WF { db with ratings := db.ratings ++ [r], nextId := db.nextId + 1 } := by
  obtain ⟨⟨hkeys, hnodup, hbound⟩, hrv, hsv⟩ := h
  refine ⟨⟨?_, ?_, ?_⟩, ?_, ?_⟩
  · unfold ratingKeysUnique
    rw [List.pairwise_append]
    refine ⟨hkeys, by simp, ?_⟩
    intro x hx b hb
    simp at hb
    subst hb
    exact hkey x hx
  · unfold ratingIdsNodup
    rw [List.map_append, List.nodup_append]
    refine ⟨hnodup, by simp, ?_⟩
    intro x hx
    obtain ⟨t, ht, rfl⟩ := List.mem_map.mp hx
    simp
    rw [hid]
    exact Nat.ne_of_lt (hbound t ht)
  · intro x hx
    rcases List.mem_append.mp hx with hxm | hxr
    · exact lt_of_lt_of_le (hbound x hxm) (Nat.le_succ _)
    · simp at hxr
      subst hxr
      rw [hid]
      exact Nat.lt_succ_self _
  · intro x hx
    rcases List.mem_append.mp hx with hxm | hxr
    · exact hrv x hxm
    · simp at hxr
      subst hxr
      exact hval
  · exact hsv

lemma postRating_WF (db : DB) (tok : Option Nat) (sid? : Option Nat)
    (r? : Option ℚ) (c? : Option String) (now : Nat) (h : WF db) :
    WF (postRating db tok sid? r? c? now).2 := by
  simp only [postRating]
  split
  · exact h
  split
  · exact h
  split
  · exact h
  split
  · exact h
  split
  · exact h
  split
  · rename_i existing hex
    split
    · rename_i hvalid
      have hmem : existing ∈ db.ratings := List.mem_of_find?_eq_some hex
      exact hook_WF _ _ _ (saveRating_WF db existing _ hmem rfl rfl rfl hvalid h)
    · exact h
  · rename_i hnone
    split
    · rename_i hvalid
      apply hook_WF
      apply WF_append_rating db _ h rfl _ hvalid
      intro x hx hcontra
      have := List.find?_eq_none.mp hnone x hx
      simp at this
      exact absurd (this hcontra.1) (by simp [hcontra.2])
    · exact h

lemma findRating_mem (db : DB) (rid : Nat) (r : Rating)
    (h : findRating db rid = some r) : r ∈ db.ratings :=
  List.mem_of_find?_eq_some h

lemma putRating_WF (db : DB) (tok : Option Nat) (rid : Nat)
    (r? : Option ℚ) (c? : Option String) (now : Nat) (h : WF db) :
    WF (putRating db tok rid r? c? now).2 := by
  simp only [putRating]
  repeat' split
  all_goals try exact h
  all_goals
    first
      | (rename_i existing hex hown hq hvalid
         exact hook_WF _ _ _ (saveRating_WF db existing _
           (findRating_mem db rid _ hex) rfl rfl rfl hvalid h))
      | (rename_i existing hex hown hvalid
         exact hook_WF _ _ _ (saveRating_WF db existing _
           (findRating_mem db rid _ hex) rfl rfl rfl hvalid h))

lemma deleteRating_WF (db : DB) (tok : Option Nat) (rid : Nat) (h : WF db) :
    WF (deleteRating db tok rid).2 := by
  simp only [deleteRating]
  split
  · exact h
  split
  · exact h
  split
  · exact h
  obtain ⟨⟨hkeys, hnodup, hbound⟩, hrv, hsv⟩ := h
  refine ⟨⟨?_, ?_, ?_⟩, ?_, ?_⟩
  · exact List.Pairwise.sublist (List.filter_sublist _) hkeys
  · exact List.Nodup.sublist (List.Sublist.map _ (List.filter_sublist _)) hnodup
  · intro r hr
    exact hbound r (List.mem_of_mem_filter hr)
  · intro r hr
    exact hrv r (List.mem_of_mem_filter hr)
  · exact hsv

/-- Every API request preserves the database well-formedness invariant. -/
lemma applyReq_WF (db : DB) (req : Req) (now : Nat) (h : WF db) :
    WF (applyReq db req now).2 := by
  cases req with
  | register n e p a r => exact register_WF db n e p a r now h
  | login e p => rw [show (applyReq db (.login e p) now).2 = db from login_db db e p]; exact h
  | getProfile tok => rw [show (applyReq db (.getProfile tok) now).2 = db from getProfile_db db tok]; exact h
  | verifyToken tok => rw [show (applyReq db (.verifyToken tok) now).2 = db from verifyToken_db db tok]; exact h
  | patchPassword tok c n => exact patchPassword_WF db tok c n now h
  | createUser tok n e p a r => exact createUser_WF db tok n e p a r now h
  | listUsers tok pg lim n e a r => rw [show (applyReq db (.listUsers tok pg lim n e a r) now).2 = db from listUsers_db db tok pg lim n e a r]; exact h
  | getUser tok uid => rw [show (applyReq db (.getUser tok uid) now).2 = db from getUser_db db tok uid]; exact h
  | updateUser tok uid n e a r act => exact updateUser_WF db tok uid n e a r act now h
  | deleteUser tok uid => exact deleteUser_WF db tok uid now h
  | createStore tok n e a o => exact createStore_WF db tok n e a o now h
  | updateStore tok sid n e a => exact updateStore_WF db tok sid n e a now h
  | deleteStore tok sid => exact deleteStore_WF db tok sid now h
  | postRating tok sid r c => exact postRating_WF db tok sid r c now h
  | putRating tok rid r c => exact putRating_WF db tok rid r c now h
  | deleteRating tok rid => exact deleteRating_WF db tok rid h
  | ratingStats tok => rw [show (applyReq db (.ratingStats tok) now).2 = db from ratingStats_db db tok]; exact h

/-- Well-formedness is preserved along any request sequence. -/
lemma applySeq_WF (db : DB) (l : List (Req × Nat)) (h : WF db) :
    WF (applySeq db l) := by
  induction l generalizing db with
  | nil => exact h
  | cons hd tl ih => exact ih _ (applyReq_WF db hd.1 hd.2 h)

/-- Claim C3.  In every database state reachable from a well-formed one
there is at most one rating document per (userId, storeId) pair: POST
/api/ratings updates the caller's existing rating for the store in place
(it is found by the (userId, storeId) lookup and saved under its own id)
and only creates a new document when none exists, and no other request
ever duplicates a pair, so no sequence of requests yields two ratings by
one user for one store. -/
theorem c3_one_rating_per_user_store (db : DB) (l : List (Req × Nat))
    (h : WF db) : ratingKeysUnique (applySeq db l) :=
  (applySeq_WF db l h).1.1

/-- Witness for C3: starting from the sample database, the same user posts
two ratings for the same store; the hypotheses are discharged by
computation. -/
theorem c3_witness :
    WF dbW ∧
    ratingKeysUnique (applySeq dbW
      [(Req.postRating (some 2) (some 10) (some 4) none, 1),
       (Req.postRating (some 2) (some 10) (some 3) none, 2)]) :=
  ⟨by decide,
   c3_one_rating_per_user_store dbW
     [(Req.postRating (some 2) (some 10) (some 4) none, 1),
      (Req.postRating (some 2) (some 10) (some 3) none, 2)] (by decide)⟩

/-- Claim C4.  Under every request sequence from a well-formed state, every
stored rating document has an integer value between 1 and 5 and a comment
of at most 500 characters, and every store's `averageRating` stays within
[0, 5] and `totalRatings` stays at least 0. -/
theorem c4_stored_documents_in_bounds (db : DB) (l : List (Req × Nat))
    (h : WF db) :
    (∀ r ∈ (applySeq db l).ratings,
       1 ≤ r.rating ∧ r.rating ≤ 5 ∧ isIntQ r.rating = true ∧
         strLen r.comment ≤ 500) ∧
    (∀ s ∈ (applySeq db l).stores,
       0 ≤ s.averageRating ∧ s.averageRating ≤ 5 ∧ 0 ≤ s.totalRatings) := by
  have hw := applySeq_WF db l h
  constructor
  · intro r hr
    have hv := hw.2.1 r hr
    simp [ratingDocValid] at hv
    exact ⟨hv.1.1.1, hv.1.1.2, by simp [hv.1.2], hv.2⟩
  · intro s hs
    exact ⟨(hw.2.2 s hs).1, (hw.2.2 s hs).2, Nat.zero_le _⟩

lemma find?_map_replace {α : Type} (key : α → Nat) (l : List α) (k : Nat)
    (s t : α) (hfind : l.find? (fun x => key x == k) = some t) (hid : key s = k) :
    (l.map (fun x => if key x == key s then s else x)).find?
      (fun x => key x == k) = some s := by
  induction l with
  | nil => simp at hfind
  | cons a l ih =>
    by_cases h : key a = k
    · have hbeq : (key a == key s) = true := by simp [h, hid]
      have hs : (key s == k) = true := by simp [hid]
      simp only [List.map_cons, hbeq, if_true, List.find?_cons, hs]
    · have hbeq : (key a == key s) = false := by
        simp [hid]
        exact fun hc => h hc
      have hpa : (key a == k) = false := by
        simp
        exact h
      simp only [List.find?_cons, hpa] at hfind
      simp only [List.map_cons, hbeq, Bool.false_eq_true, if_false,
        List.find?_cons, hpa]
      exact ih hfind

lemma findUser_saveUser (db : DB) (upd t : User) (uid : Nat)
    (hfind : findUser db uid = some t) (hid : upd.id = uid) :
    findUser (saveUser db upd) uid = some upd :=
  find?_map_replace (α := User) (fun u => u.id) db.users uid upd t hfind hid

lemma findRating_saveRating (db : DB) (upd t : Rating) (rid : Nat)
    (hfind : findRating db rid = some t) (hid : upd.id = rid) :
    findRating (saveRating db upd) rid = some upd :=
  find?_map_replace (α := Rating) (fun r => r.id) db.ratings rid upd t hfind hid

lemma findStore_saveStore (db : DB) (upd t : Store) (sid : Nat)
    (hfind : findStore db sid = some t) (hid : upd.id = sid) :
    findStore (saveStore db upd) sid = some upd :=
  find?_map_replace (α := Store) (fun s => s.id) db.stores sid upd t hfind hid

/-- Witness for C4: the sample database, one update of the existing rating
and one admin store edit. -/
theorem c4_witness :
    WF dbW ∧
    ((∀ r ∈ (applySeq dbW
        [(Req.postRating (some 2) (some 10) (some 4) (some "ok!"), 1),
         (Req.deleteRating (some 1) 100, 2)]).ratings,
       1 ≤ r.rating ∧ r.rating ≤ 5 ∧ isIntQ r.rating = true ∧
         strLen r.comment ≤ 500) ∧
    (∀ s ∈ (applySeq dbW
        [(Req.postRating (some 2) (some 10) (some 4) (some "ok!"), 1),
         (Req.deleteRating (some 1) 100, 2)]).stores,
       0 ≤ s.averageRating ∧ s.averageRating ≤ 5 ∧ 0 ≤ s.totalRatings)) :=
  ⟨by decide,
   c4_stored_documents_in_bounds dbW
     [(Req.postRating (some 2) (some 10) (some 4) (some "ok!"), 1),
      (Req.deleteRating (some 1) 100, 2)] (by decide)⟩

lemma authorize_none (roles : List String) (u : User)
    (h : roles.contains u.role = true) : authorize roles u = none := by
  unfold authorize
  rw [if_pos h]

lemma authorize_some_403 (roles : List String) (u : User)
    (h : roles.contains u.role = false) :
    ∃ r, authorize roles u = some r ∧ r.status = 403 := by
  unfold authorize
  rw [if_neg (fun hc => by rw [h] at hc; exact Bool.false_ne_true hc)]
  exact ⟨_, rfl, rfl⟩

/-- Claim C5.  A request that fails input validation is answered with the
400 "Validation failed" JSON response and leaves the database exactly as it
was: shown for POST /api/ratings (for an authenticated normal user, so that
the validation middleware is reached) and for POST /api/auth/register. -/
theorem c5_validation_failure_400_unchanged (db : DB) :
    (∀ tok u sid? r? c? now, authenticateToken db tok = Except.ok u →
      u.role = "user" → validateRatingBody sid? r? c? = none →
      postRating db tok sid? r? c? now = (validationFailedResp, db)) ∧
    (∀ n e p a r now, validateUserRegBody n e p a r = none →
      register db n e p a r now = (validationFailedResp, db)) ∧
    validationFailedResp.status = 400 := by
  refine ⟨?_, ?_, rfl⟩
  · intro tok u sid? r? c? now hauth hrole hval
    have hnone : authorize ["user"] u = none := by
      apply authorize_none
      simp [hrole]
    simp [postRating, hauth, hnone, hval]
  · intro n e p a r now hval
    simp [register, hval]

/-- Witness for C5: rating 6 (out of range) and a password with no
uppercase or special character are both rejected with 400 and do not change
the sample database. -/
theorem c5_witness :
    postRating dbW (some 2) (some 10) (some 6) none 7 = (validationFailedResp, dbW) ∧
    register dbW (some "Norberta Newcomer Nine") (some "new@example.com")
      (some "password") (some "1 New Street") none 7 = (validationFailedResp, dbW) :=
  ⟨(c5_validation_failure_400_unchanged dbW).1 (some 2) normalW (some 10) (some 6)
     none 7 rfl rfl rfl,
   (c5_validation_failure_400_unchanged dbW).2.1 (some "Norberta Newcomer Nine")
     (some "new@example.com") (some "password") (some "1 New Street") none 7 rfl⟩

/-- Claim C6.  Every role-gated endpoint answers an authenticated caller
whose role is outside the allowed set with 403 and leaves the database
unchanged: POST /api/users, PUT /api/users/:userId, DELETE
/api/stores/:storeId and GET /api/ratings/stats/overview require role
`admin`, and POST /api/ratings requires role `user`. -/
theorem c6_role_gated_403 (db : DB) (tok : Option Nat) (u : User)
    (hauth : authenticateToken db tok = Except.ok u) :
    (u.role ≠ "admin" → ∀ n e p a r now,
      (createUser db tok n e p a r now).1.status = 403 ∧
      (createUser db tok n e p a r now).2 = db) ∧
    (u.role ≠ "admin" → ∀ uid n e a r act now,
      (updateUser db tok uid n e a r act now).1.status = 403 ∧
      (updateUser db tok uid n e a r act now).2 = db) ∧
    (u.role ≠ "admin" → ∀ sid now,
      (deleteStore db tok sid now).1.status = 403 ∧
      (deleteStore db tok sid now).2 = db) ∧
    (u.role ≠ "admin" →
      (ratingStats db tok).1.status = 403 ∧ (ratingStats db tok).2 = db) ∧
    (u.role ≠ "user" → ∀ sid? r? c? now,
      (postRating db tok sid? r? c? now).1.status = 403 ∧
      (postRating db tok sid? r? c? now).2 = db) := by
  refine ⟨?_, ?_, ?_, ?_, ?_⟩
  · intro hrole n e p a r now
    obtain ⟨resp, heq, hstat⟩ := authorize_some_403 ["admin"] u (by simp [hrole])
    simp [createUser, hauth, heq, hstat]
  · intro hrole uid n e a r act now
    obtain ⟨resp, heq, hstat⟩ := authorize_some_403 ["admin"] u (by simp [hrole])
    simp [updateUser, hauth, heq, hstat]
  · intro hrole sid now
    obtain ⟨resp, heq, hstat⟩ := authorize_some_403 ["admin"] u (by simp [hrole])
    simp [deleteStore, hauth, heq, hstat]
  · intro hrole
    obtain ⟨resp, heq, hstat⟩ := authorize_some_403 ["admin"] u (by simp [hrole])
    simp [ratingStats, hauth, heq, hstat]
  · intro hrole sid? r? c? now
    obtain ⟨resp, heq, hstat⟩ := authorize_some_403 ["user"] u (by simp [hrole])
    simp [postRating, hauth, heq, hstat]

/-- Witness for C6: the store owner is turned away from the admin-only
endpoints and the admin from POST /api/ratings. -/
theorem c6_witness :
    ((createUser dbW (some 3) (some "Nina Newby Created") (some "n@example.com")
        (some "Passw0rd!") (some "9 New Road") (some "user") 9).1.status = 403 ∧
      (createUser dbW (some 3) (some "Nina Newby Created") (some "n@example.com")
        (some "Passw0rd!") (some "9 New Road") (some "user") 9).2 = dbW) ∧
    ((postRating dbW (some 1) (some 10) (some 5) none 9).1.status = 403 ∧
      (postRating dbW (some 1) (some 10) (some 5) none 9).2 = dbW) :=
  ⟨(c6_role_gated_403 dbW (some 3) ownerW rfl).1 (by decide) (some "Nina Newby Created")
     (some "n@example.com") (some "Passw0rd!") (some "9 New Road") (some "user") 9,
   (c6_role_gated_403 dbW (some 1) adminW rfl).2.2.2.2 (by decide) (some 10)
     (some 5) none 9⟩

/-- Claim C7.  The user and store DELETE handlers are soft deletes: on a 200
response the target document is still present, its `isActive` is false, and
every other field except `updatedAt` is unchanged (the record equals the
pre-state record with only `isActive` and `updatedAt` replaced). -/
lemma authenticateToken_error_status (db : DB) (tok : Option Nat) (r : Resp)
    (h : authenticateToken db tok = Except.error r) : r.status = 401 := by
  rcases tok with _ | uid
  · simp [authenticateToken] at h
    rw [← h]
    rfl
  · rcases hf : findUser db uid with _ | u
    · simp [authenticateToken, hf] at h
      rw [← h]
      rfl
    · simp [authenticateToken, hf] at h
      split at h
      · simp at h
      · simp at h
        rw [← h]
        rfl

lemma authorize_some_status (roles : List String) (u : User) (r : Resp)
    (h : authorize roles u = some r) : r.status = 403 := by
  unfold authorize at h
  split at h
  · simp at h
  · simp at h
    rw [← h]

theorem c7_soft_delete_frame (db : DB) (tok : Option Nat) :
    (∀ uid now out, deleteUser db tok uid now = out → out.1.status = 200 →
      ∃ u, findUser db uid = some u ∧
        findUser out.2 uid = some { u with isActive := false, updatedAt := now }) ∧
    (∀ sid now out, deleteStore db tok sid now = out → out.1.status = 200 →
      ∃ s, findStore db sid = some s ∧
        findStore out.2 sid = some { s with isActive := false, updatedAt := now }) := by
  constructor
  · intro uid now out hout hst
    simp only [deleteUser] at hout
    split at hout
    · rename_i r hauth
      rw [← hout] at hst
      have h401 := authenticateToken_error_status db tok r hauth
      simp at hst
      rw [h401] at hst
      simp at hst
    split at hout
    · rename_i r hauth
      rw [← hout] at hst
      have h403 := authorize_some_status _ _ r hauth
      simp at hst
      rw [h403] at hst
      simp at hst
    split at hout
    · rw [← hout] at hst
      simp [errResp] at hst
    rename_i user hfnd
    split at hout
    · rw [← hout]
      refine ⟨user, hfnd, ?_⟩
      have hid : user.id = uid := by
        have := List.find?_some hfnd
        simpa using this
      exact findUser_saveUser db _ user uid hfnd (by simp [hid])
    · rw [← hout] at hst
      simp [errResp] at hst
  · intro sid now out hout hst
    simp only [deleteStore] at hout
    split at hout
    · rename_i r hauth
      rw [← hout] at hst
      have h401 := authenticateToken_error_status db tok r hauth
      simp at hst
      rw [h401] at hst
      simp at hst
    split at hout
    · rename_i r hauth
      rw [← hout] at hst
      have h403 := authorize_some_status _ _ r hauth
      simp at hst
      rw [h403] at hst
      simp at hst
    split at hout
    · rw [← hout] at hst
      simp [errResp] at hst
    rename_i store hfnd
    split at hout
    · rw [← hout]
      refine ⟨store, hfnd, ?_⟩
      have hid : store.id = sid := by
        have := List.find?_some hfnd
        simpa using this
      exact findStore_saveStore db _ store sid hfnd (by simp [hid])
    · rw [← hout] at hst
      simp [errResp] at hst

/-- Witness for C7: the admin soft-deletes the normal user and the store in
the sample database. -/
theorem c7_witness :
    ((deleteUser dbW (some 1) 2 9).1.status = 200 ∧
      ∃ u, findUser dbW 2 = some u ∧
        findUser (deleteUser dbW (some 1) 2 9).2 2 =
          some { u with isActive := false, updatedAt := 9 }) ∧
    ((deleteStore dbW (some 1) 10 9).1.status = 200 ∧
      ∃ s, findStore dbW 10 = some s ∧
        findStore (deleteStore dbW (some 1) 10 9).2 10 =
          some { s with isActive := false, updatedAt := 9 }) :=
  ⟨⟨by decide, (c7_soft_delete_frame dbW (some 1)).1 2 9 _ rfl (by decide)⟩,
   ⟨by decide, (c7_soft_delete_frame dbW (some 1)).2 10 9 _ rfl (by decide)⟩⟩

lemma findRating_hook (db : DB) (sid now rid : Nat) :
    findRating (ratingPostSaveHook db sid now) rid = findRating db rid := by
  unfold findRating
  rw [hook_ratings]

/-- Claim C8.  PUT /api/ratings/:ratingId on the caller's own rating with a
rating field that is 0 or absent is not rejected: both the range check and
the assignment are guarded by JS truthiness, so the stored rating value is
kept while the comment is replaced (defaulting to the empty string, trimmed
by the schema setter) and the request succeeds with 200. -/
theorem c8_put_rating_falsy_rating_kept (db : DB) (tok : Option Nat) (rid : Nat)
    (r? : Option ℚ) (c? : Option String) (now : Nat) (u : User) (ex : Rating)
    (hauth : authenticateToken db tok = Except.ok u) (hrole : u.role = "user")
    (hq : r? = none ∨ r? = some 0)
    (hex : findRating db rid = some ex) (hown : ex.userId = u.id)
    (hval : ratingDocValid
      { ex with comment := jsTrim (c?.getD ""), updatedAt := now } = true) :
    (putRating db tok rid r? c? now).1.status = 200 ∧
    findRating (putRating db tok rid r? c? now).2 rid =
      some { ex with comment := jsTrim (c?.getD ""), updatedAt := now } := by
  have hnone : authorize ["user"] u = none := by
    apply authorize_none
    simp [hrole]
  have hqt : qTruthy r? = false := by
    rcases hq with hq | hq <;> subst hq <;> simp [qTruthy]
  have hid : ex.id = rid := by
    simpa using List.find?_some hex
  rw [hown] at hval
  constructor
  · simp [putRating, hauth, hnone, hqt, hex, hown, hval]
  · simp only [putRating, hauth, hnone, hqt]
    simp only [Bool.false_and, Bool.false_eq_true, if_false, hex, hown]
    simp only [beq_self_eq_true, Bool.not_true, Bool.false_eq_true, if_false, hval,
      if_true]
    rw [findRating_hook]
    exact findRating_saveRating db _ ex rid hex (by simp [hid])

/-- Witness for C8: the normal user sends rating 0 with no comment for
their existing rating; the value 5 survives and the comment is cleared. -/
theorem c8_witness :
    (putRating dbW (some 2) 100 (some 0) none 9).1.status = 200 ∧
    findRating (putRating dbW (some 2) 100 (some 0) none 9).2 100 =
      some { ratingW with comment := jsTrim "", updatedAt := 9 } :=
  c8_put_rating_falsy_rating_kept dbW (some 2) 100 (some 0) none 9 normalW ratingW
    rfl rfl (Or.inr rfl) rfl rfl (by decide)

lemma auth_401 (db : DB) (uid : Nat)
    (h : findUser db uid = none ∨
      ∃ u, findUser db uid = some u ∧ u.isActive = false) :
    authenticateToken db (some uid) = Except.error
      (errResp 401 "Access denied. User not found or inactive." "USER_NOT_FOUND") := by
  rcases h with h | ⟨u, hu, hact⟩
  · simp [authenticateToken, h]
  · simp [authenticateToken, hu, hact]

/-- Claim C9 (amended).  A valid, unexpired JWT whose user no longer exists
or is inactive is rejected with 401 by every modelled authenticated
endpoint, and the request leaves the database unchanged — so while a
soft-deleted user stays inactive, no request under their outstanding tokens
performs any action.  (As originally stated the claim fails: an admin can
reactivate the user, after which outstanding tokens work again; see the
counterexample.) -/
theorem c9_stale_token_rejected_while_inactive (db : DB) (uid : Nat)
    (h : findUser db uid = none ∨
      ∃ u, findUser db uid = some u ∧ u.isActive = false) :
    ((getProfile db (some uid)).1.status = 401 ∧ (getProfile db (some uid)).2 = db) ∧
    ((verifyToken db (some uid)).1.status = 401 ∧ (verifyToken db (some uid)).2 = db) ∧
    (∀ c n now, (patchPassword db (some uid) c n now).1.status = 401 ∧
      (patchPassword db (some uid) c n now).2 = db) ∧
    (∀ n e p a r now, (createUser db (some uid) n e p a r now).1.status = 401 ∧
      (createUser db (some uid) n e p a r now).2 = db) ∧
    (∀ pg lim n e a r, (listUsers db (some uid) pg lim n e a r).1.status = 401 ∧
      (listUsers db (some uid) pg lim n e a r).2 = db) ∧
    (∀ uid2, (getUser db (some uid) uid2).1.status = 401 ∧
      (getUser db (some uid) uid2).2 = db) ∧
    (∀ uid2 n e a r act now,
      (updateUser db (some uid) uid2 n e a r act now).1.status = 401 ∧
      (updateUser db (some uid) uid2 n e a r act now).2 = db) ∧
    (∀ uid2 now, (deleteUser db (some uid) uid2 now).1.status = 401 ∧
      (deleteUser db (some uid) uid2 now).2 = db) ∧
    (∀ n e a o now, (createStore db (some uid) n e a o now).1.status = 401 ∧
      (createStore db (some uid) n e a o now).2 = db) ∧
    (∀ sid n e a now, (updateStore db (some uid) sid n e a now).1.status = 401 ∧
      (updateStore db (some uid) sid n e a now).2 = db) ∧
    (∀ sid now, (deleteStore db (some uid) sid now).1.status = 401 ∧
      (deleteStore db (some uid) sid now).2 = db) ∧
    (∀ sid? r? c? now, (postRating db (some uid) sid? r? c? now).1.status = 401 ∧
      (postRating db (some uid) sid? r? c? now).2 = db) ∧
    (∀ rid r? c? now, (putRating db (some uid) rid r? c? now).1.status = 401 ∧
      (putRating db (some uid) rid r? c? now).2 = db) ∧
    (∀ rid, (deleteRating db (some uid) rid).1.status = 401 ∧
      (deleteRating db (some uid) rid).2 = db) ∧
    ((ratingStats db (some uid)).1.status = 401 ∧ (ratingStats db (some uid)).2 = db) := by
  have ha := auth_401 db uid h
  refine ⟨?_, ?_, ?_, ?_, ?_, ?_, ?_, ?_, ?_, ?_, ?_, ?_, ?_, ?_, ?_⟩ <;> intros <;>
    simp [getProfile, verifyToken, patchPassword, createUser, listUsers, getUser,
      updateUser, deleteUser, createStore, updateStore, deleteStore, postRating,
      putRating, deleteRating, ratingStats, ha, errResp]

/-- The database after the admin soft-deletes the normal user. -/
def dbC9a : DB := (deleteUser dbW (some 1) 2 1).2

/-- ... and then reactivates them via PUT /api/users/2 with isActive true. -/
def dbC9b : DB := (updateUser dbC9a (some 1) 2 none none none none (some true) 2).2

/-- Counterexample to C9 as stated: after the soft delete of user 2 (200,
user inactive), an admin PUT /api/users/2 { isActive: true } succeeds, and a
subsequent POST /api/ratings bearing user 2's outstanding token succeeds
(200) and changes state — the stored rating value moves from 5 to 3.  So a
state reachable by further requests does include an action performed under
the soft-deleted user's outstanding token. -/
theorem c9_counterexample :
    (deleteUser dbW (some 1) 2 1).1.status = 200 ∧
    (findUser dbC9a 2).map User.isActive = some false ∧
    (updateUser dbC9a (some 1) 2 none none none none (some true) 2).1.status = 200 ∧
    (postRating dbC9b (some 2) (some 10) (some 3) none 3).1.status = 200 ∧
    (findRating dbC9b 100).map Rating.rating = some 5 ∧
    (findRating (postRating dbC9b (some 2) (some 10) (some 3) none 3).2 100).map
      Rating.rating = some 3 := by
  decide

/-- The sample database with the normal user soft-deleted. -/
def normalWOff : User := { normalW with isActive := false }

/-- The sample database with user 2 inactive. -/
def dbWOff : DB := ⟨[adminW, normalWOff, ownerW], [storeW], [ratingW], 200⟩

/-- Witness for the amended C9: user 2 is inactive, and their token is
turned away from the profile endpoint with 401 and no state change. -/
theorem c9_witness :
    (∃ u, findUser dbWOff 2 = some u ∧ u.isActive = false) ∧
    (getProfile dbWOff (some 2)).1.status = 401 ∧
    (getProfile dbWOff (some 2)).2 = dbWOff :=
  ⟨⟨normalWOff, rfl, rfl⟩,
   (c9_stale_token_rejected_while_inactive dbWOff 2
     (Or.inr ⟨normalWOff, rfl, rfl⟩)).1.1,
   (c9_stale_token_rejected_while_inactive dbWOff 2
     (Or.inr ⟨normalWOff, rfl, rfl⟩)).1.2⟩

/-! ## Password non-disclosure (claim C10)

The public API's read responses are characterized by the set of strings
they may contain: fixed message/error texts and the non-password fields of
stored documents (plus tokens, which are functions of id and role only).
The stored password hash is not among them. -/

/-- The fixed message and error-code strings of the modelled read
endpoints, their middleware and the role enum. -/
def apiMessages : List String :=
  ["Access denied. No token provided.", "NO_TOKEN",
   "Access denied. User not found or inactive.", "USER_NOT_FOUND",
   "Access denied. Insufficient permissions.", "INSUFFICIENT_PERMISSIONS",
   "admin", "user", "storeOwner",
   "Validation failed", "User already exists with this email", "USER_EXISTS",
   "Invalid email or password", "INVALID_CREDENTIALS",
   "User registered successfully", "Login successful",
   "Profile retrieved successfully", "Token is valid",
   "Users retrieved successfully", "User retrieved successfully",
   "User not found"]

/-- The strings a user document may contribute to a response: every stored
field except the password, plus a token minted for the user. -/
def publicUserStrings (u : User) : List String :=
  [toString u.id, u.name, u.email, u.address, u.role,
   generateToken u.id u.role] ++
  (match u.storeId with
   | none => []
   | some sid => [toString sid])

/-- The strings a store document may contribute to a response. -/
def publicStoreStrings (s : Store) : List String :=
  [toString s.id, s.name, s.email, s.address]

/-- The strings a rating document may contribute to a response. -/
def publicRatingStrings (r : Rating) : List String :=
  [toString r.id, toString r.userId, toString r.storeId, r.comment]

/-- `publicUserStrings` over a user list. -/
def usersStrings : List User → List String
  | [] => []
  | u :: us => publicUserStrings u ++ usersStrings us

/-- `publicStoreStrings` over a store list. -/
def storesStrings : List Store → List String
  | [] => []
  | s :: ss => publicStoreStrings s ++ storesStrings ss

/-- `publicRatingStrings` over a rating list. -/
def ratingsStrings : List Rating → List String
  | [] => []
  | r :: rs => publicRatingStrings r ++ ratingsStrings rs

/-- Every string that may legitimately appear in a read response over
database `db`. -/
def publicStrings (db : DB) : List String :=
  apiMessages ++ usersStrings db.users ++ storesStrings db.stores ++
    ratingsStrings db.ratings

lemma mem_usersStrings (p : String) (l : List User) :
    p ∈ usersStrings l ↔ ∃ u ∈ l, p ∈ publicUserStrings u := by
  induction l with
  | nil => simp [usersStrings]
  | cons u us ih => simp [usersStrings, ih]

lemma mem_storesStrings (p : String) (l : List Store) :
    p ∈ storesStrings l ↔ ∃ s ∈ l, p ∈ publicStoreStrings s := by
  induction l with
  | nil => simp [storesStrings]
  | cons s ss ih => simp [storesStrings, ih]

lemma mem_ratingsStrings (p : String) (l : List Rating) :
    p ∈ ratingsStrings l ↔ ∃ r ∈ l, p ∈ publicRatingStrings r := by
  induction l with
  | nil => simp [ratingsStrings]
  | cons r rs ih => simp [ratingsStrings, ih]

lemma mem_jsonStringsArr (p : String) (js : List Json) :
    p ∈ jsonStringsArr js ↔ ∃ j ∈ js, p ∈ jsonStrings j := by
  induction js with
  | nil => simp [jsonStringsArr]
  | cons j js ih => simp [jsonStringsArr, ih]

lemma jsonHasKeyArr_eq_any (k : String) (js : List Json) :
    jsonHasKeyArr k js = js.any (jsonHasKey k) := by
  induction js with
  | nil => simp [jsonHasKeyArr]
  | cons j js ih => simp [jsonHasKeyArr, ih]

lemma mem_insertBy {α : Type} (le : α → α → Bool) (a x : α) (l : List α) :
    x ∈ insertBy le a l ↔ x = a ∨ x ∈ l := by
  induction l with
  | nil => simp [insertBy]
  | cons b t ih =>
    simp only [insertBy]
    split
    · simp
    · simp [ih]
      tauto

lemma sortBy_subset {α : Type} (le : α → α → Bool) (l : List α) :
    sortBy le l ⊆ l := by
  induction l with
  | nil => simp [sortBy]
  | cons a t ih =>
    intro x hx
    simp only [sortBy] at hx
    rcases (mem_insertBy le a x _).mp hx with h | h
    · simp [h]
    · simp [ih h]

lemma auth_ok_mem (db : DB) (tok : Option Nat) (u : User)
    (h : authenticateToken db tok = Except.ok u) : u ∈ db.users := by
  rcases tok with _ | uid
  · simp [authenticateToken] at h
  · rcases hf : findUser db uid with _ | v
    · simp [authenticateToken, hf] at h
    · simp [authenticateToken, hf] at h
      split at h
      · simp at h
        subst h
        exact List.mem_of_find?_eq_some hf
      · simp at h

lemma errResp_c10 (db : DB) (status : Nat) (msg code : String)
    (hm : msg ∈ apiMessages) (hc : code ∈ apiMessages) :
    (∀ q ∈ jsonStrings (errResp status msg code).body, q ∈ publicStrings db) ∧
    jsonHasKey "password" (errResp status msg code).body = false := by
  constructor
  · intro q hq
    simp [errResp, jsonStrings, jsonStringsObj] at hq
    rcases hq with rfl | rfl <;> simp [publicStrings, hm, hc]
  · simp [errResp, jsonHasKey, jsonHasKeyObj]

lemma validationFailed_c10 (db : DB) :
    (∀ q ∈ jsonStrings validationFailedResp.body, q ∈ publicStrings db) ∧
    jsonHasKey "password" validationFailedResp.body = false := by
  constructor
  · intro q hq
    simp [validationFailedResp, jsonStrings, jsonStringsObj, jsonStringsArr] at hq
    subst hq
    simp [publicStrings, apiMessages]
  · simp [validationFailedResp, jsonHasKey, jsonHasKeyObj, jsonHasKeyArr]

lemma auth_error_c10 (db db2 : DB) (tok : Option Nat) (r : Resp)
    (h : authenticateToken db tok = Except.error r) :
    (∀ q ∈ jsonStrings r.body, q ∈ publicStrings db2) ∧
    jsonHasKey "password" r.body = false := by
  rcases tok with _ | uid
  · simp [authenticateToken] at h
    rw [← h]
    exact errResp_c10 db2 401 _ _ (by simp [apiMessages]) (by simp [apiMessages])
  · rcases hf : findUser db uid with _ | v
    · simp [authenticateToken, hf] at h
      rw [← h]
      exact errResp_c10 db2 401 _ _ (by simp [apiMessages]) (by simp [apiMessages])
    · simp [authenticateToken, hf] at h
      split at h
      · simp at h
      · simp at h
        rw [← h]
        exact errResp_c10 db2 401 _ _ (by simp [apiMessages]) (by simp [apiMessages])

lemma user_mem_publicStrings (db : DB) (u : User) (hu : u ∈ db.users)
    (q : String) (hq : q ∈ publicUserStrings u) : q ∈ publicStrings db := by
  simp only [publicStrings]
  have : q ∈ usersStrings db.users := (mem_usersStrings _ _).mpr ⟨u, hu, hq⟩
  simp [this]

lemma store_mem_publicStrings (db : DB) (s : Store) (hs : s ∈ db.stores)
    (q : String) (hq : q ∈ publicStoreStrings s) : q ∈ publicStrings db := by
  simp only [publicStrings]
  have : q ∈ storesStrings db.stores := (mem_storesStrings _ _).mpr ⟨s, hs, hq⟩
  simp [this]

lemma rating_mem_publicStrings (db : DB) (r : Rating) (hr : r ∈ db.ratings)
    (q : String) (hq : q ∈ publicRatingStrings r) : q ∈ publicStrings db := by
  simp only [publicStrings]
  have : q ∈ ratingsStrings db.ratings := (mem_ratingsStrings _ _).mpr ⟨r, hr, hq⟩
  simp [this]

lemma msg_mem_publicStrings (db : DB) (q : String) (hq : q ∈ apiMessages) :
    q ∈ publicStrings db := by
  simp [publicStrings, hq]

lemma authorize_some_c10 (db : DB) (roles : List String) (u : User) (r : Resp)
    (h : authorize roles u = some r) (hmem : u ∈ db.users)
    (hroles : ∀ q ∈ roles, q ∈ apiMessages) :
    (∀ q ∈ jsonStrings r.body, q ∈ publicStrings db) ∧
    jsonHasKey "password" r.body = false := by
  unfold authorize at h
  split at h
  · simp at h
  · simp at h
    rw [← h]
    constructor
    · intro q hq
      simp [jsonStrings, jsonStringsObj] at hq
      rcases hq with rfl | rfl | hq | rfl
      · exact msg_mem_publicStrings _ _ (by simp [apiMessages])
      · exact msg_mem_publicStrings _ _ (by simp [apiMessages])
      · rcases (mem_jsonStringsArr q _).mp hq with ⟨j, hj, hqj⟩
        obtain ⟨ro, hro, rfl⟩ := List.mem_map.mp hj
        simp [jsonStrings] at hqj
        subst hqj
        exact msg_mem_publicStrings _ _ (hroles _ hro)
      · exact user_mem_publicStrings db u hmem _ (by simp [publicUserStrings])
    · simp [jsonHasKey, jsonHasKeyObj, jsonHasKeyArr_eq_any]

lemma jsonStrings_str (s : String) : jsonStrings (Json.str s) = [s] := rfl

lemma jsonStrings_obj (kvs : List (String × Json)) :
    jsonStrings (Json.obj kvs) = jsonStringsObj kvs := rfl

lemma jsonStrings_arr (js : List Json) :
    jsonStrings (Json.arr js) = jsonStringsArr js := rfl

lemma jsonStrings_num (q : ℚ) : jsonStrings (Json.num q) = [] := rfl

lemma jsonStrings_bool (b : Bool) : jsonStrings (Json.bool b) = [] := rfl

lemma jsonStrings_null : jsonStrings Json.null = [] := rfl

lemma jsonHasKey_str (k s : String) : jsonHasKey k (Json.str s) = false := rfl

lemma jsonHasKey_obj (k : String) (kvs : List (String × Json)) :
    jsonHasKey k (Json.obj kvs) = jsonHasKeyObj k kvs := rfl

lemma jsonHasKey_arr (k : String) (js : List Json) :
    jsonHasKey k (Json.arr js) = jsonHasKeyArr k js := rfl

lemma jsonHasKey_num (k : String) (q : ℚ) : jsonHasKey k (Json.num q) = false := rfl

lemma jsonHasKey_bool (k : String) (b : Bool) :
    jsonHasKey k (Json.bool b) = false := rfl

lemma jsonHasKey_null (k : String) : jsonHasKey k Json.null = false := rfl

lemma userToJSON_strings (u : User) (sj : Json) (q : String)
    (hq : q ∈ jsonStrings (userToJSON u sj)) :
    q ∈ publicUserStrings u ∨ q ∈ jsonStrings sj := by
  simp [userToJSON, jsonStrings, jsonStringsObj, jsonId] at hq
  rcases hq with rfl | rfl | rfl | rfl | rfl | hq
  · left; simp [publicUserStrings]
  · left; simp [publicUserStrings]
  · left; simp [publicUserStrings]
  · left; simp [publicUserStrings]
  · left; simp [publicUserStrings]
  · right; exact hq

lemma userToJSON_noKey (u : User) (sj : Json)
    (h : jsonHasKey "password" sj = false) :
    jsonHasKey "password" (userToJSON u sj) = false := by
  simp [userToJSON, jsonHasKey, jsonHasKeyObj, jsonId, h]

lemma jsonOptId_strings (db : DB) (u : User) (hu : u ∈ db.users) (q : String)
    (hq : q ∈ jsonStrings (jsonOptId u.storeId)) : q ∈ publicStrings db := by
  rcases hs : u.storeId with _ | sid <;> rw [hs] at hq
  · simp [jsonOptId, jsonStrings] at hq
  · simp [jsonOptId, jsonId, jsonStrings] at hq
    subst hq
    exact user_mem_publicStrings db u hu _ (by simp [publicUserStrings, hs])

lemma jsonOptId_noKey (sid? : Option Nat) :
    jsonHasKey "password" (jsonOptId sid?) = false := by
  rcases sid? with _ | sid <;> simp [jsonOptId, jsonId, jsonHasKey]

lemma storeJsonProfile_strings (db : DB) (sid? : Option Nat) (q : String)
    (hq : q ∈ jsonStrings (storeJsonProfile db sid?)) : q ∈ publicStrings db := by
  rcases sid? with _ | sid
  · simp [storeJsonProfile, jsonStrings] at hq
  · simp only [storeJsonProfile] at hq
    rcases hf : findStore db sid with _ | s <;> rw [hf] at hq
    · simp [jsonStrings] at hq
    · have hs : s ∈ db.stores := List.mem_of_find?_eq_some hf
      simp [jsonStrings, jsonStringsObj, jsonId] at hq
      rcases hq with rfl | rfl | rfl | rfl | rfl <;>
        exact store_mem_publicStrings db s hs _ (by simp [publicStoreStrings])

lemma storeJsonProfile_noKey (db : DB) (sid? : Option Nat) :
    jsonHasKey "password" (storeJsonProfile db sid?) = false := by
  rcases sid? with _ | sid
  · simp [storeJsonProfile, jsonHasKey]
  · simp only [storeJsonProfile]
    rcases hf : findStore db sid with _ | s <;>
      simp [jsonHasKey, jsonHasKeyObj, jsonId]

lemma storeJsonUserList_strings (db : DB) (sid? : Option Nat) (q : String)
    (hq : q ∈ jsonStrings (storeJsonUserList db sid?)) : q ∈ publicStrings db := by
  rcases sid? with _ | sid
  · simp [storeJsonUserList, jsonStrings] at hq
  · simp only [storeJsonUserList] at hq
    rcases hf : findStore db sid with _ | s <;> rw [hf] at hq
    · simp [jsonStrings] at hq
    · have hs : s ∈ db.stores := List.mem_of_find?_eq_some hf
      simp [jsonStrings, jsonStringsObj, jsonId] at hq
      rcases hq with rfl | rfl | rfl <;>
        exact store_mem_publicStrings db s hs _ (by simp [publicStoreStrings])

lemma storeJsonUserList_noKey (db : DB) (sid? : Option Nat) :
    jsonHasKey "password" (storeJsonUserList db sid?) = false := by
  rcases sid? with _ | sid
  · simp [storeJsonUserList, jsonHasKey]
  · simp only [storeJsonUserList]
    rcases hf : findStore db sid with _ | s <;>
      simp [jsonHasKey, jsonHasKeyObj, jsonId]

lemma storeJsonUserDetail_strings (db : DB) (sid? : Option Nat) (q : String)
    (hq : q ∈ jsonStrings (storeJsonUserDetail db sid?)) : q ∈ publicStrings db := by
  rcases sid? with _ | sid
  · simp [storeJsonUserDetail, jsonStrings] at hq
  · simp only [storeJsonUserDetail] at hq
    rcases hf : findStore db sid with _ | s <;> rw [hf] at hq
    · simp [jsonStrings] at hq
    · have hs : s ∈ db.stores := List.mem_of_find?_eq_some hf
      simp [jsonStrings, jsonStringsObj, jsonId] at hq
      rcases hq with rfl | rfl | rfl | rfl | rfl <;>
        exact store_mem_publicStrings db s hs _ (by simp [publicStoreStrings])

lemma storeJsonUserDetail_noKey (db : DB) (sid? : Option Nat) :
    jsonHasKey "password" (storeJsonUserDetail db sid?) = false := by
  rcases sid? with _ | sid
  · simp [storeJsonUserDetail, jsonHasKey]
  · simp only [storeJsonUserDetail]
    rcases hf : findStore db sid with _ | s <;>
      simp [jsonHasKey, jsonHasKeyObj, jsonId]

lemma ratingJsonWithRater_strings (db : DB) (r : Rating) (hr : r ∈ db.ratings)
    (q : String) (hq : q ∈ jsonStrings (ratingJsonWithRater db r)) :
    q ∈ publicStrings db := by
  simp only [ratingJsonWithRater] at hq
  rcases hf : findUser db r.userId with _ | v <;> rw [hf] at hq
  · simp [jsonStrings, jsonStringsObj, jsonId] at hq
    rcases hq with rfl | rfl | rfl | rfl <;>
      exact rating_mem_publicStrings db r hr _ (by simp [publicRatingStrings])
  · have hv : v ∈ db.users := List.mem_of_find?_eq_some hf
    simp [jsonStrings, jsonStringsObj, jsonId] at hq
    rcases hq with rfl | rfl | rfl | rfl | rfl | rfl | rfl | rfl
    all_goals first
      | (refine rating_mem_publicStrings db r hr _ ?_
         simp [publicRatingStrings]
         done)
      | (refine user_mem_publicStrings db v hv _ ?_
         simp [publicUserStrings]
         done)

lemma ratingJsonWithRater_noKey (db : DB) (r : Rating) :
    jsonHasKey "password" (ratingJsonWithRater db r) = false := by
  simp only [ratingJsonWithRater]
  rcases hf : findUser db r.userId with _ | v <;>
    simp [jsonHasKey, jsonHasKeyObj, jsonId]

lemma newUser_mem_publicStrings (db : DB) (stored : User) (q : String)
    (hq : q ∈ publicUserStrings stored) :
    q ∈ publicStrings
      { db with users := db.users ++ [stored], nextId := db.nextId + 1 } :=
  user_mem_publicStrings _ stored (by simp) q hq

lemma register_c10 (db : DB) (n e p a r : Option String) (now : Nat) :
    (∀ q ∈ jsonStrings (register db n e p a r now).1.body,
      q ∈ publicStrings (register db n e p a r now).2) ∧
    jsonHasKey "password" (register db n e p a r now).1.body = false := by
  simp only [register]
  repeat' split
  all_goals first
    | exact validationFailed_c10 _
    | exact errResp_c10 _ 400 _ _ (by simp [apiMessages]) (by simp [apiMessages])
    | skip
  constructor
  · intro q hq
    simp [jsonStrings, jsonStringsObj, jsonId] at hq
    rcases hq with rfl | rfl | rfl | rfl | rfl | rfl | rfl
    all_goals first
      | (refine msg_mem_publicStrings _ _ ?_
         simp [apiMessages]
         done)
      | (refine newUser_mem_publicStrings db _ _ ?_
         simp [publicUserStrings]
         done)
  · simp [jsonHasKey, jsonHasKeyObj, jsonId]

lemma login_c10 (db : DB) (e p : Option String) :
    (∀ q ∈ jsonStrings (login db e p).1.body,
      q ∈ publicStrings (login db e p).2) ∧
    jsonHasKey "password" (login db e p).1.body = false := by
  simp only [login]
  repeat' split
  all_goals first
    | exact validationFailed_c10 _
    | exact errResp_c10 _ 401 _ _ (by simp [apiMessages]) (by simp [apiMessages])
    | skip
  rename_i email password hvalid user hfnd hact hcmp
  have hu : user ∈ db.users := List.mem_of_find?_eq_some hfnd
  constructor
  · intro q hq
    simp [jsonStrings, jsonStringsObj, jsonId] at hq
    rcases hq with rfl | rfl | rfl | rfl | rfl | rfl | rfl | hq
    all_goals first
      | (refine msg_mem_publicStrings _ _ ?_
         simp [apiMessages]
         done)
      | (refine user_mem_publicStrings _ user hu _ ?_
         simp [publicUserStrings]
         done)
      | exact jsonOptId_strings db user hu _ hq
  · simp [jsonHasKey, jsonHasKeyObj, jsonId, jsonOptId_noKey]

lemma getProfile_c10 (db : DB) (tok : Option Nat) :
    (∀ q ∈ jsonStrings (getProfile db tok).1.body,
      q ∈ publicStrings (getProfile db tok).2) ∧
    jsonHasKey "password" (getProfile db tok).1.body = false := by
  simp only [getProfile]
  split
  · rename_i r hauth
    exact auth_error_c10 db db tok r hauth
  rename_i user hauth
  have hu : user ∈ db.users := auth_ok_mem db tok user hauth
  constructor
  · intro q hq
    simp only [jsonStrings, jsonStringsObj, List.mem_append] at hq
    simp at hq
    rcases hq with rfl | hq
    · exact msg_mem_publicStrings _ _ (by simp [apiMessages])
    · rcases userToJSON_strings user _ q hq with hqu | hqs
      · exact user_mem_publicStrings db user hu q hqu
      · exact storeJsonProfile_strings db user.storeId q hqs
  · have h1 := userToJSON_noKey user (storeJsonProfile db user.storeId)
      (storeJsonProfile_noKey db user.storeId)
    simp [jsonHasKey_obj, jsonHasKeyObj, jsonHasKey_str, h1]

lemma verifyToken_c10 (db : DB) (tok : Option Nat) :
    (∀ q ∈ jsonStrings (verifyToken db tok).1.body,
      q ∈ publicStrings (verifyToken db tok).2) ∧
    jsonHasKey "password" (verifyToken db tok).1.body = false := by
  simp only [verifyToken]
  split
  · rename_i r hauth
    exact auth_error_c10 db db tok r hauth
  rename_i user hauth
  have hu : user ∈ db.users := auth_ok_mem db tok user hauth
  constructor
  · intro q hq
    simp only [jsonStrings, jsonStringsObj, List.mem_append] at hq
    simp at hq
    rcases hq with rfl | hq
    · exact msg_mem_publicStrings _ _ (by simp [apiMessages])
    · rcases userToJSON_strings user _ q hq with hqu | hqs
      · exact user_mem_publicStrings db user hu q hqu
      · exact jsonOptId_strings db user hu q hqs
  · have h1 := userToJSON_noKey user (jsonOptId user.storeId)
      (jsonOptId_noKey user.storeId)
    simp [jsonHasKey_obj, jsonHasKeyObj, jsonHasKey_str, h1]

lemma listUsers_c10 (db : DB) (tok : Option Nat) (pg lim : Option Nat)
    (n e a r : Option String) :
    (∀ q ∈ jsonStrings (listUsers db tok pg lim n e a r).1.body,
      q ∈ publicStrings (listUsers db tok pg lim n e a r).2) ∧
    jsonHasKey "password" (listUsers db tok pg lim n e a r).1.body = false := by
  simp only [listUsers]
  split
  · rename_i rr hauth
    exact auth_error_c10 db db tok rr hauth
  rename_i caller hauth
  have hcm : caller ∈ db.users := auth_ok_mem db tok caller hauth
  split
  · rename_i rr hz
    exact authorize_some_c10 db _ caller rr hz hcm (by simp [apiMessages])
  split
  · exact validationFailed_c10 db
  constructor
  · intro q hq
    simp only [jsonStrings, jsonStringsObj, paginationJson, List.mem_append] at hq
    simp at hq
    rcases hq with rfl | hq
    · exact msg_mem_publicStrings _ _ (by simp [apiMessages])
    · rcases (mem_jsonStringsArr q _).mp hq with ⟨j, hj, hqj⟩
      have hj2 := List.drop_subset _ _ (List.take_subset _ _ hj)
      obtain ⟨u', hu', rfl⟩ := List.mem_map.mp hj2
      have humem : u' ∈ db.users :=
        List.mem_of_mem_filter (sortBy_subset _ _ hu')
      rcases userToJSON_strings u' _ q hqj with hqu | hqs
      · exact user_mem_publicStrings db u' humem q hqu
      · exact storeJsonUserList_strings db u'.storeId q hqs
  · simp only [jsonHasKey_obj, jsonHasKeyObj, jsonHasKey_str, jsonHasKey_arr,
      jsonHasKeyArr_eq_any, paginationJson, jsonHasKey_num, jsonHasKey_bool]
    simp
    intro j hj
    have hj2 := List.drop_subset _ _ (List.take_subset _ _ hj)
    obtain ⟨u', hu', rfl⟩ := List.mem_map.mp hj2
    simp [userToJSON_noKey u' _ (storeJsonUserList_noKey db u'.storeId)]

lemma getUser_c10 (db : DB) (tok : Option Nat) (uid : Nat) :
    (∀ q ∈ jsonStrings (getUser db tok uid).1.body,
      q ∈ publicStrings (getUser db tok uid).2) ∧
    jsonHasKey "password" (getUser db tok uid).1.body = false := by
  simp only [getUser]
  split
  · rename_i rr hauth
    exact auth_error_c10 db db tok rr hauth
  rename_i caller hauth
  have hcm : caller ∈ db.users := auth_ok_mem db tok caller hauth
  split
  · rename_i rr hz
    exact authorize_some_c10 db _ caller rr hz hcm (by simp [apiMessages])
  split
  · exact errResp_c10 db 404 _ _ (by simp [apiMessages]) (by simp [apiMessages])
  rename_i user hfnd
  split
  · exact errResp_c10 db 404 _ _ (by simp [apiMessages]) (by simp [apiMessages])
  have hum : user ∈ db.users := List.mem_of_find?_eq_some hfnd
  have huser_strings : ∀ q, q ∈ jsonStrings
      (userToJSON user (storeJsonUserDetail db user.storeId)) →
      q ∈ publicStrings db := by
    intro q hq
    rcases userToJSON_strings user _ q hq with hqu | hqs
    · exact user_mem_publicStrings db user hum q hqu
    · exact storeJsonUserDetail_strings db user.storeId q hqs
  have huser_key := userToJSON_noKey user (storeJsonUserDetail db user.storeId)
    (storeJsonUserDetail_noKey db user.storeId)
  rcases hsid : user.storeId with _ | sid
  · simp only [hsid]
    constructor
    · intro q hq
      simp only [jsonStrings, jsonStringsObj, List.mem_append, List.append_nil] at hq
      simp at hq
      rcases hq with rfl | hq
      · exact msg_mem_publicStrings _ _ (by simp [apiMessages])
      · exact huser_strings q (by rw [hsid]; exact hq)
    · simp only [List.append_nil, jsonHasKey_obj, jsonHasKeyObj, jsonHasKey_str]
      rw [hsid] at huser_key
      simp [huser_key]
  · simp only [hsid]
    rw [hsid] at huser_strings huser_key
    by_cases hrole : (user.role == "storeOwner") = true
    · simp only [hrole, if_true]
      rcases hfs : findStore db sid with _ | s
      · simp only []
        constructor
        · intro q hq
          simp only [jsonStrings, jsonStringsObj, List.mem_append, List.append_nil] at hq
          simp at hq
          rcases hq with rfl | hq
          · exact msg_mem_publicStrings _ _ (by simp [apiMessages])
          · exact huser_strings q hq
        · simp only [List.append_nil, jsonHasKey_obj, jsonHasKeyObj, jsonHasKey_str]
          simp [huser_key]
      · have hsmem : s ∈ db.stores := List.mem_of_find?_eq_some hfs
        simp only []
        constructor
        · intro q hq
          simp only [List.cons_append, List.nil_append, List.append_nil,
            jsonStrings_obj, jsonStringsObj, jsonStrings_str, jsonStrings_num,
            jsonStrings_arr, jsonId, List.mem_append, List.mem_singleton,
            List.mem_cons, List.not_mem_nil, or_false] at hq
          rcases hq with rfl | hq | rfl | rfl | rfl | rfl | rfl | hq
          all_goals first
            | (refine msg_mem_publicStrings _ _ ?_
               simp [apiMessages]
               done)
            | exact huser_strings q hq
            | (refine store_mem_publicStrings db s hsmem _ ?_
               simp [publicStoreStrings]
               done)
            | (rcases (mem_jsonStringsArr q _).mp hq with ⟨j, hj, hqj⟩
               obtain ⟨r', hr', rfl⟩ := List.mem_map.mp hj
               have hrmem : r' ∈ db.ratings :=
                 List.mem_of_mem_filter
                   (sortBy_subset _ _ (List.take_subset _ _ hr'))
               exact ratingJsonWithRater_strings db r' hrmem q hqj)
        · simp only [List.cons_append, List.nil_append, jsonHasKey_obj,
            jsonHasKeyObj, jsonHasKey_str, jsonHasKey_num, jsonHasKey_arr,
            jsonHasKeyArr_eq_any, jsonId]
          simp [huser_key]
          intro j hj
          obtain ⟨r', hr', rfl⟩ := List.mem_map.mp (List.take_subset _ _ hj)
          simp [ratingJsonWithRater_noKey db r']
    · simp only [hrole]
      simp only [Bool.false_eq_true, if_false]
      constructor
      · intro q hq
        simp only [jsonStrings, jsonStringsObj, List.mem_append, List.append_nil] at hq
        simp at hq
        rcases hq with rfl | hq
        · exact msg_mem_publicStrings _ _ (by simp [apiMessages])
        · exact huser_strings q hq
      · simp only [List.append_nil, jsonHasKey_obj, jsonHasKeyObj, jsonHasKey_str]
        simp [huser_key]

/-- The successful-read endpoints named by claim C10: registration, login,
profile retrieval, token verification, admin user listing and retrieval. -/
def c10Endpoint : Req → Bool
  | .register _ _ _ _ _ => true
  | .login _ _ => true
  | .getProfile _ => true
  | .verifyToken _ => true
  | .listUsers _ _ _ _ _ _ _ => true
  | .getUser _ _ => true
  | _ => false

/-- Claim C10.  No response of the public read API (registration, login,
profile, token verification, admin user listing/retrieval) contains the
stored password hash or plaintext password: no JSON object in the body has
a "password" key (the `toJSON` method deletes it and the queries deselect
it), and every string in the body comes from the fixed messages or the
non-password fields of stored documents — so a stored password that does
not collide with those public strings never appears in a body. -/
theorem c10_no_password_in_read_responses (db : DB) (req : Req) (now : Nat)
    (hread : c10Endpoint req = true) :
    jsonHasKey "password" (applyReq db req now).1.body = false ∧
    (∀ q ∈ jsonStrings (applyReq db req now).1.body,
      q ∈ publicStrings (applyReq db req now).2) ∧
    (∀ u ∈ (applyReq db req now).2.users,
      u.password ∉ publicStrings (applyReq db req now).2 →
      u.password ∉ jsonStrings (applyReq db req now).1.body) := by
  cases req with
  | register n e p a r =>
    refine ⟨(register_c10 db n e p a r now).2, (register_c10 db n e p a r now).1, ?_⟩
    intro u hu hnp hin
    exact hnp ((register_c10 db n e p a r now).1 _ hin)
  | login e p =>
    refine ⟨(login_c10 db e p).2, (login_c10 db e p).1, ?_⟩
    intro u hu hnp hin
    exact hnp ((login_c10 db e p).1 _ hin)
  | getProfile tok =>
    refine ⟨(getProfile_c10 db tok).2, (getProfile_c10 db tok).1, ?_⟩
    intro u hu hnp hin
    exact hnp ((getProfile_c10 db tok).1 _ hin)
  | verifyToken tok =>
    refine ⟨(verifyToken_c10 db tok).2, (verifyToken_c10 db tok).1, ?_⟩
    intro u hu hnp hin
    exact hnp ((verifyToken_c10 db tok).1 _ hin)
  | listUsers tok pg lim n e a r =>
    refine ⟨(listUsers_c10 db tok pg lim n e a r).2,
      (listUsers_c10 db tok pg lim n e a r).1, ?_⟩
    intro u hu hnp hin
    exact hnp ((listUsers_c10 db tok pg lim n e a r).1 _ hin)
  | getUser tok uid =>
    refine ⟨(getUser_c10 db tok uid).2, (getUser_c10 db tok uid).1, ?_⟩
    intro u hu hnp hin
    exact hnp ((getUser_c10 db tok uid).1 _ hin)
  | patchPassword tok c n => simp [c10Endpoint] at hread
  | createUser tok n e p a r => simp [c10Endpoint] at hread
  | updateUser tok uid n e a r act => simp [c10Endpoint] at hread
  | deleteUser tok uid => simp [c10Endpoint] at hread
  | createStore tok n e a o => simp [c10Endpoint] at hread
  | updateStore tok sid n e a => simp [c10Endpoint] at hread
  | deleteStore tok sid => simp [c10Endpoint] at hread
  | postRating tok sid r c => simp [c10Endpoint] at hread
  | putRating tok rid r c => simp [c10Endpoint] at hread
  | deleteRating tok rid => simp [c10Endpoint] at hread
  | ratingStats tok => simp [c10Endpoint] at hread

/-- Witness for C10: the store owner fetches their profile (which embeds
their populated store) against the sample database. -/
theorem c10_witness :
    c10Endpoint (Req.getProfile (some 3)) = true ∧
    (jsonHasKey "password" (applyReq dbW (Req.getProfile (some 3)) 9).1.body = false ∧
    (∀ q ∈ jsonStrings (applyReq dbW (Req.getProfile (some 3)) 9).1.body,
      q ∈ publicStrings (applyReq dbW (Req.getProfile (some 3)) 9).2) ∧
    (∀ u ∈ (applyReq dbW (Req.getProfile (some 3)) 9).2.users,
      u.password ∉ publicStrings (applyReq dbW (Req.getProfile (some 3)) 9).2 →
      u.password ∉ jsonStrings (applyReq dbW (Req.getProfile (some 3)) 9).1.body)) :=
  ⟨rfl, c10_no_password_in_read_responses dbW (Req.getProfile (some 3)) 9 rfl⟩

end StoreRating
